import Mathlib

/-!
Verification of the Obtura plugin runtime.

This file gives a shallow embedding, in Lean 4, of the plugin runtime of the
Obtura web framework (package `pkg/plugin`: `registry.go`, `config.go`,
`config_storage.go`, `auth.go`, and the auth plugin `plugins/auth/plugin.go`),
and proves or refutes the behavioural claims of its specification.

Embedding conventions:
- Go `interface{}` values that flow through configs, hooks and services are
  modelled by `GoValue` (JSON-like trees); Go structs that are marshalled
  to JSON maps are modelled directly as `GoValue.map`.
- Go `error` values are modelled by `GoError := String` (the message), or by
  small inductive error types when the branch taken matters.
- Go maps used as dictionaries are modelled by association lists; map
  assignment is `assocInsert` (update in place or append), lookup is
  `assocLookup`.  Iteration over a Go map has unspecified order, so every
  theorem about such an iteration quantifies over the iteration order.
- Stateful methods are modelled as functions `State → args → State × result`,
  where the returned `State` is the state the Go method leaves behind,
  including on the error paths (so "a failed call leaves the state
  unchanged" is a real theorem, not an artifact).
- `float64` fields that the claims only ever exercise at integral values
  (schema `Min`/`Max`) are modelled as `Int`; all comparisons involved are
  exact in `float64` over that range.
-/

namespace Obtura

/-- Go `error` values, modelled by their message. -/
abbrev GoError := String

/-- A dynamic Go/JSON value (`interface{}` as it appears in configs, hooks
and services): string, number, boolean, array, object, or nil. -/
inductive GoValue where
  | str : String → GoValue
  | num : Int → GoValue
  | bool : Bool → GoValue
  | list : List GoValue → GoValue
  | map : List (String × GoValue) → GoValue
  | null : GoValue

/-- Association-list lookup, modelling Go map read `m[k]` (with the comma-ok
idiom: `none` means the key is absent). -/
def assocLookup {α : Type} : List (String × α) → String → Option α
  | [], _ => none
  | (k, v) :: rest, key => if k = key then some v else assocLookup rest key

/-- Association-list update, modelling Go map assignment `m[k] = v`. -/
def assocInsert {α : Type} : List (String × α) → String → α → List (String × α)
  | [], key, v => [(key, v)]
  | (k, w) :: rest, key, v =>
    if k = key then (k, v) :: rest else (k, w) :: assocInsert rest key v

/-- `listContains s pat` decides whether `pat` occurs as a contiguous
sublist of `s`. -/
def listContains {α : Type} [DecidableEq α] : List α → List α → Bool
  | s, pat =>
    if pat.isPrefixOf s then true
    else
      match s with
      | [] => false
      | _ :: t => listContains t pat

/-- Go `strings.Contains`. -/
def strContains (s pat : String) : Bool := listContains s.toList pat.toList

/-! ## Configuration schemas and validation (`pkg/plugin/config.go`) -/

/-- Go struct `Option` of `config.go` (an allowed value of a select /
multiselect field); renamed to avoid clashing with Lean's `Option`. -/
structure ConfigOption where
  value : String
  label : String
deriving DecidableEq, Repr

/-- Go struct `Validation` of `config.go`.  `Min`/`Max` are `*float64` in Go,
modelled as `Option Int` (see the header); `MinLen`/`MaxLen` are `*int`. -/
structure Validation where
  min : Option Int
  max : Option Int
  minLen : Option Nat
  maxLen : Option Nat
  regex : String
deriving DecidableEq, Repr

/-- Go struct `ConfigField` of `config.go`.  The Go field `Type` is called
`ftype` here (`Type` is reserved in Lean). -/
structure ConfigField where
  name : String
  ftype : String
  label : String
  description : String
  default : Option GoValue
  required : Bool
  options : List ConfigOption
  validation : Option Validation

/-- Go struct `ConfigSchema` of `config.go`. -/
structure ConfigSchema where
  fields : List ConfigField

/-- The reason a single field fails validation, mirroring the distinct
`fmt.Errorf` branches of `validateConfig` / `validateField`. -/
inductive FieldErr where
  | required
  | typeMismatch (expected : String)
  | belowMin (m : Int)
  | aboveMax (m : Int)
  | belowMinLen (n : Nat)
  | aboveMaxLen (n : Nat)
  | invalidOption
  | notArray
deriving DecidableEq, Repr

/-- Go `ConfigManager.isValidOption`: the value must be a string equal to the
`Value` of one of the declared options. -/
def isValidOption (value : GoValue) (options : List ConfigOption) : Bool :=
  match value with
  | .str s => options.any (fun o => o.value == s)
  | _ => false

/-- Go `ConfigManager.validateField` of `config.go`: type check plus the
per-type constraints.  Note that the string length checks use Go's
`len(str)`, which counts UTF-8 BYTES, modelled by `String.utf8ByteSize`.
An unknown `Type` string falls through the switch and passes. -/
def validateField (value : GoValue) (field : ConfigField) : Option FieldErr :=
  match field.ftype with
  | "string" =>
    match value with
    | .str s =>
      match field.validation with
      | none => none
      | some v =>
        match v.minLen with
        | some m =>
          if s.utf8ByteSize < m then some (.belowMinLen m)
          else
            match v.maxLen with
            | some M => if M < s.utf8ByteSize then some (.aboveMaxLen M) else none
            | none => none
        | none =>
          match v.maxLen with
          | some M => if M < s.utf8ByteSize then some (.aboveMaxLen M) else none
          | none => none
    | _ => some (.typeMismatch "string")
  | "number" =>
    match value with
    | .num n =>
      match field.validation with
      | none => none
      | some v =>
        match v.min with
        | some m =>
          if n < m then some (.belowMin m)
          else
            match v.max with
            | some M => if M < n then some (.aboveMax M) else none
            | none => none
        | none =>
          match v.max with
          | some M => if M < n then some (.aboveMax M) else none
          | none => none
    | _ => some (.typeMismatch "number")
  | "boolean" =>
    match value with
    | .bool _ => none
    | _ => some (.typeMismatch "boolean")
  | "select" =>
    if isValidOption value field.options then none else some .invalidOption
  | "multiselect" =>
    match value with
    | .list vs =>
      if vs.all (fun v => isValidOption v field.options) then none
      else some .invalidOption
    | _ => some .notArray
  | _ => none

/-- Whether an `Option GoValue` is `some GoValue.null` (Go: the key is present
but its value is the nil interface). -/
def isNullValue : Option GoValue → Bool
  | some .null => true
  | _ => false

/-- The body of one iteration of the field loop in Go's
`ConfigManager.validateConfig`: the required-field check followed by
`validateField` (skipped when the field is absent and not required). -/
def checkField (m : List (String × GoValue)) (f : ConfigField) : Option FieldErr :=
  let value := assocLookup m f.name
  if f.required && (value.isNone || isNullValue value) then some .required
  else
    match value with
    | none => none
    | some v => validateField v f

/-- A validation error: either the config could not be converted to a map, or
a named field failed (`fmt.Errorf("field %s: %w", ...)`). -/
inductive VErr where
  | notAMap
  | field (name : String) (e : FieldErr)
deriving DecidableEq, Repr

/-- The field loop of Go's `ConfigManager.validateConfig`: fields are checked
in schema order and the FIRST failure is returned. -/
def validateFields (m : List (String × GoValue)) : List ConfigField → Option VErr
  | [] => none
  | f :: rest =>
    match checkField m f with
    | some e => some (.field f.name e)
    | none => validateFields m rest

/-- Go `ConfigManager.validateConfig`: the config is converted to a map (a
non-map value fails the JSON round-trip) and each schema field is checked
in order. -/
def validateConfig (config : GoValue) (schema : ConfigSchema) : Option VErr :=
  match config with
  | .map m => validateFields m schema.fields
  | _ => some .notAMap

/-! ## Configuration storage (`pkg/plugin/config_storage.go`) -/

/-- The `ConfigStorage` interface consumed by the `ConfigManager`, over an
abstract backend state `σ`.  `load` does not logically mutate the stored
documents but may advance backend state (the file backend records its
filesystem accesses there), so it also returns a `σ`. -/
structure Storage (σ : Type) where
  load : σ → String → σ × Except GoError GoValue
  save : σ → String → GoValue → σ × Option GoError

/-- Backend state of `MemoryConfigStorage`: the guarded map from plugin id to
stored document. -/
abbrev MemSt := List (String × GoValue)

/-- Go `MemoryConfigStorage.Load`: copy-out lookup, `ErrNotFound` when the id
is unknown (copying is the identity in a pure model). -/
def memLoad (st : MemSt) (pluginID : String) : MemSt × Except GoError GoValue :=
  (st,
    match assocLookup st pluginID with
    | some c => .ok c
    | none => .error ("no configuration found for plugin: " ++ pluginID))

/-- Go `MemoryConfigStorage.Save`: unconditional store (of a copy). -/
def memSave (st : MemSt) (pluginID : String) (config : GoValue) :
    MemSt × Option GoError :=
  (assocInsert st pluginID config, none)

/-- The in-memory `ConfigStorage` implementation. -/
def memStorage : Storage MemSt := { load := memLoad, save := memSave }

/-- One filesystem access performed by the file-backed storage. -/
inductive FSAccess where
  | read (path : String)
  | write (path : String)
  | remove (path : String)
deriving DecidableEq, Repr

/-- The bytes a file on disk holds, as far as this storage can observe them:
either bytes that unmarshal to a config document (`doc v`), or bytes that do
not — such as the truncated prefix a failed `os.WriteFile` leaves behind
(`corrupt`). -/
inductive FileContent where
  | doc (v : GoValue)
  | corrupt

/-- The outcome the environment hands one `os.WriteFile` call.  `os.WriteFile`
opens with `O_WRONLY|O_CREATE|O_TRUNC`, writes, then closes, so its failure
modes are: the open fails and the file is untouched (`failOpen`); the write
fails after the open truncated the file, leaving a strict byte prefix of the
data — bytes that no longer parse as a document (`failMid`); or the write
completes and only the close fails, leaving the full document (`failFull`). -/
inductive WriteOutcome where
  | ok
  | failOpen (e : GoError)
  | failMid (e : GoError)
  | failFull (e : GoError)
deriving DecidableEq, Repr

/-- The filesystem as seen by `JSONFileConfigStorage`: the bytes of each config
file on disk (at the resolution of `FileContent`; the JSON codec is a
bijection on the documents this storage writes), the log of every access
attempted — which is how "without touching the filesystem" is made checkable —
and the environment's schedule of outcomes for the upcoming `os.WriteFile`
calls (each write consumes one entry; an exhausted schedule means the write
succeeds, so a schedule-free state is the always-succeeding filesystem). -/
structure FSState where
  files : List (String × FileContent)
  log : List FSAccess
  sched : List WriteOutcome

/-- Go helper `readFile` (`os.ReadFile`): always touches the filesystem;
fails when the file is absent, otherwise returns the raw bytes. -/
def readFile (fs : FSState) (path : String) : FSState × Except GoError FileContent :=
  ({ fs with log := fs.log ++ [.read path] },
    match assocLookup fs.files path with
    | some c => .ok c
    | none => .error "no such file")

/-- Go helper `writeFile` (`os.WriteFile`): always touches the filesystem, and
fails or succeeds as the environment's schedule dictates.  On `failOpen` the
file is untouched; on `failMid` the `O_TRUNC` open has destroyed the prior
content and the partial write leaves bytes that do not parse (`corrupt`); on
`failFull` the data was fully written and only the close failed. -/
def writeFile (fs : FSState) (path : String) (data : GoValue) :
    FSState × Option GoError :=
  match fs.sched with
  | [] =>
    ({ fs with files := assocInsert fs.files path (.doc data),
               log := fs.log ++ [.write path] }, none)
  | .ok :: rest =>
    ({ fs with files := assocInsert fs.files path (.doc data),
               log := fs.log ++ [.write path], sched := rest }, none)
  | .failOpen e :: rest =>
    ({ fs with log := fs.log ++ [.write path], sched := rest }, some e)
  | .failMid e :: rest =>
    ({ fs with files := assocInsert fs.files path .corrupt,
               log := fs.log ++ [.write path], sched := rest }, some e)
  | .failFull e :: rest =>
    ({ fs with files := assocInsert fs.files path (.doc data),
               log := fs.log ++ [.write path], sched := rest }, some e)

/-- Go helper `removeFile` (`os.Remove`, with `IsNotExist` mapped to nil):
always touches the filesystem; tolerates a missing file. -/
def removeFile (fs : FSState) (path : String) : FSState × Option GoError :=
  ({ fs with files := fs.files.filter (fun kv => !(kv.1 == path)),
             log := fs.log ++ [.remove path] },
    none)

/-- Go struct `JSONFileConfigStorage` (its immutable part). -/
structure JSONFileConfigStorage where
  basePath : String

/-- Go `JSONFileConfigStorage.configPath`: `filepath.Join(basePath, id+".json")`.
Join is modelled as plain concatenation; the path-cleaning `filepath.Join`
also performs does not affect whether the filesystem is touched. -/
def configPath (s : JSONFileConfigStorage) (pluginID : String) : String :=
  s.basePath ++ "/" ++ pluginID ++ ".json"

/-- Go `validatePluginID` of `config_storage.go`: rejects the empty id and any
id containing `..`, `/` or `\`, to prevent directory traversal. -/
def validatePluginID (pluginID : String) : Option GoError :=
  if pluginID = "" then some "plugin ID cannot be empty"
  else if strContains pluginID ".." || strContains pluginID "/" ||
          strContains pluginID "\\" then
    some ("invalid plugin ID: " ++ pluginID)
  else none

/-- Go `JSONFileConfigStorage.Save`: validates the plugin id FIRST (returning
before any filesystem access on a bad id), then marshals and writes. -/
def fileSave (s : JSONFileConfigStorage) (fs : FSState) (pluginID : String)
    (config : GoValue) : FSState × Option GoError :=
  match validatePluginID pluginID with
  | some e => (fs, some e)
  | none =>
    match writeFile fs (configPath s pluginID) config with
    | (fs1, some e) => (fs1, some ("failed to write config file: " ++ e))
    | (fs1, none) => (fs1, none)

/-- Go `JSONFileConfigStorage.Load`: builds the path from the id and reads the
file directly — it does NOT call `validatePluginID` — then unmarshals, failing
on bytes that do not parse as a document. -/
def fileLoad (s : JSONFileConfigStorage) (fs : FSState) (pluginID : String) :
    FSState × Except GoError GoValue :=
  match readFile fs (configPath s pluginID) with
  | (fs1, .error e) => (fs1, .error ("failed to read config file: " ++ e))
  | (fs1, .ok (.doc v)) => (fs1, .ok v)
  | (fs1, .ok .corrupt) => (fs1, .error "failed to parse config JSON")

/-- Go `JSONFileConfigStorage.Delete`: builds the path from the id and removes
the file directly — it does NOT call `validatePluginID`. -/
def fileDelete (s : JSONFileConfigStorage) (fs : FSState) (pluginID : String) :
    FSState × Option GoError :=
  match removeFile fs (configPath s pluginID) with
  | (fs1, some e) => (fs1, some ("failed to delete config file: " ++ e))
  | (fs1, none) => (fs1, none)

/-- The file-backed `ConfigStorage` implementation over a base directory. -/
def fileStorage (s : JSONFileConfigStorage) : Storage FSState :=
  { load := fileLoad s, save := fileSave s }

/-! ## The configuration manager (`pkg/plugin/config.go`) -/

/-- The error returned by `ConfigManager.SetConfig`, mirroring its three
`fmt.Errorf` branches. -/
inductive CfgErr where
  | validation (e : VErr)
  | notAMap
  | saveFailed (e : GoError)
deriving DecidableEq, Repr

/-- Go struct `ConfigManager`: the storage backend state, the schema table and
the in-memory cache. -/
structure CM (σ : Type) where
  store : σ
  schemas : List (String × ConfigSchema)
  cache : List (String × GoValue)

/-- Go `ConfigManager.RegisterSchema`: idempotent overwrite. -/
def RegisterSchema {σ : Type} (cm : CM σ) (pluginID : String)
    (schema : ConfigSchema) : CM σ :=
  { cm with schemas := assocInsert cm.schemas pluginID schema }

/-- Go `ConfigManager.toMap`: a map is returned as is; any other value goes
through a JSON round-trip into `map[string]interface{}`, which fails for
non-object values (Go structs are already `GoValue.map` in this model). -/
def toMap (v : GoValue) : Except GoError GoValue :=
  match v with
  | .map m => .ok (.map m)
  | _ => .error "failed to convert config to map"

/-- The save-then-cache tail of Go `ConfigManager.SetConfig` (everything after
validation): convert to a map, save through the backend, and only on
successful save update the in-memory cache. -/
def setConfigSave {σ : Type} (S : Storage σ) (cm : CM σ) (pluginID : String)
    (config : GoValue) : CM σ × Option CfgErr :=
  match toMap config with
  | .error _ => (cm, some .notAMap)
  | .ok m =>
    match S.save cm.store pluginID m with
    | (st1, some e) => ({ cm with store := st1 }, some (.saveFailed e))
    | (st1, none) =>
      ({ cm with store := st1,
                 cache := assocInsert cm.cache pluginID config }, none)

/-- Go `ConfigManager.SetConfig`: validate against the registered schema when
one exists, then save through the backend and update the cache. -/
def SetConfig {σ : Type} (S : Storage σ) (cm : CM σ) (pluginID : String)
    (config : GoValue) : CM σ × Option CfgErr :=
  match assocLookup cm.schemas pluginID with
  | some schema =>
    match validateConfig config schema with
    | some e => (cm, some (.validation e))
    | none => setConfigSave S cm pluginID config
  | none => setConfigSave S cm pluginID config

/-- Go `ConfigManager.GetConfig`: cache hit, else load from storage and
populate the cache; a load error is a miss (`nil, false`). -/
def GetConfig {σ : Type} (S : Storage σ) (cm : CM σ) (pluginID : String) :
    Option GoValue × CM σ :=
  match assocLookup cm.cache pluginID with
  | some config => (some config, cm)
  | none =>
    match S.load cm.store pluginID with
    | (st1, .error _) => (none, { cm with store := st1 })
    | (st1, .ok m) =>
      (some m, { cm with store := st1,
                         cache := assocInsert cm.cache pluginID m })

/-! ## The plugin registry (`pkg/plugin/registry.go`, `pkg/plugin/plugin.go`)

Type parameters: `Ctx` is `context.Context` (opaque, threaded to handlers),
`η` is `http.Handler` (opaque, wrapped by middlewares), `σ` is the config
storage backend state. -/

/-- Go struct `Route` of `plugin.go`: method, path template, handler, ordered
per-route middlewares. -/
structure Route (η : Type) where
  method : String
  path : String
  handler : η
  middlewares : List (η → η)

/-- Go type `HookHandler`: `(context, value) → (value, error)`. -/
abbrev HookHandler (Ctx : Type) := Ctx → GoValue → Except GoError GoValue

/-- One registered plugin, as the Registry sees it.  Optional capabilities
detected by interface casts in Go are modelled structurally: a plugin
without the Service capability has `service = none`, one without hooks /
routes / admin routes has the empty list (behaviourally identical to a
capability returning nothing).  The lifecycle methods `Init`/`Start`/`Stop`
are modelled by their outcome (the error they return, if any); `genSchema`
is the schema `GenerateSchemaFromStruct(p.Config())` derives (that Go
function never returns nil).  `hooks` models the `Hooks()` map as an
association list with unique hook names (one handler per name, as a Go
map): iterating it in list order stands for the map iteration, whose order
within one plugin is unspecified and immaterial because the per-name
handler lists receive at most one handler per plugin. -/
structure PluginData (Ctx η : Type) where
  id : String
  deps : List String
  defaultConfig : GoValue
  genSchema : ConfigSchema
  service : Option GoValue
  hooks : List (String × HookHandler Ctx)
  routes : List (Route η)
  adminRoutes : List (Route η)
  initErr : Option GoError
  startErr : Option GoError
  stopErr : Option GoError

/-- Go struct `Registry`.  `routerAttached`/`boundLog` model the `router`
field and the routes bound into it: `boundLog` is the sequence of
method-specific bind calls (`router.Get/Post/...`) performed so far, each
recording the declared route and the middleware-composed handler.  `routes`
is the deferred route queue. -/
structure Registry (Ctx η σ : Type) where
  plugins : List (PluginData Ctx η)
  services : List (String × GoValue)
  hooks : List (String × List (HookHandler Ctx))
  routerAttached : Bool
  boundLog : List (Route η × η)
  routes : List (Route η)
  initialized : List String
  started : List String
  cm : CM σ

/-- Go map lookup `r.plugins[id]` (ids are unique in a registry, and the
list keeps registration order). -/
def findPlugin {Ctx η : Type} : List (PluginData Ctx η) → String → Option (PluginData Ctx η)
  | [], _ => none
  | p :: rest, id => if p.id = id then some p else findPlugin rest id

/-- Go `r.hooks[hookName] = append(r.hooks[hookName], handler)`. -/
def hookInsert {Ctx : Type} :
    List (String × List (HookHandler Ctx)) → String → HookHandler Ctx →
    List (String × List (HookHandler Ctx))
  | [], name, h => [(name, [h])]
  | (n, hs) :: rest, name, h =>
    if n = name then (n, hs ++ [h]) :: rest
    else (n, hs) :: hookInsert rest name h

/-- The hook-wiring loop of `Register`: append each of the plugin's handlers
under its hook name. -/
def addHooks {Ctx : Type} (tbl : List (String × List (HookHandler Ctx)))
    (phooks : List (String × HookHandler Ctx)) :
    List (String × List (HookHandler Ctx)) :=
  phooks.foldl (fun t nh => hookInsert t nh.1 nh.2) tbl

/-- Go `Registry.registerRoute`: with no router attached the route is queued;
otherwise the per-route middlewares are composed around the handler in
reverse index order and the route is bound (one method-dispatch call on the
router, recorded in `boundLog`). -/
def registerRoute {Ctx η σ : Type} (r : Registry Ctx η σ) (route : Route η) :
    Registry Ctx η σ :=
  if !r.routerAttached then { r with routes := r.routes ++ [route] }
  else
    let handler := route.middlewares.foldr (fun m h => m h) route.handler
    { r with boundLog := r.boundLog ++ [(route, handler)] }

/-- Go `Registry.SetRouter` (called with a non-nil router): attach the router,
bind every queued route onto it, then clear the queue. -/
def SetRouter {Ctx η σ : Type} (r : Registry Ctx η σ) : Registry Ctx η σ :=
  let r1 := { r with routerAttached := true }
  let r2 := r.routes.foldl registerRoute r1
  { r2 with routes := [] }

/-- The errors `Registry.Register` can return. -/
inductive RegErr where
  | duplicateId (id : String)
  | missingDependency (id dep : String)
deriving DecidableEq, Repr

/-- The pre-route mutations of a successful Go `Registry.Register`: store the
plugin, install the default config (`SetConfig`, error ignored), register
the derived schema, and wire the Service and Hook contributions. -/
def registerCore {Ctx η σ : Type} (S : Storage σ) (r : Registry Ctx η σ)
    (p : PluginData Ctx η) : Registry Ctx η σ :=
  let r1 := { r with plugins := r.plugins ++ [p] }
  let r2 := { r1 with cm := (SetConfig S r1.cm p.id p.defaultConfig).1 }
  let r3 := { r2 with cm := RegisterSchema r2.cm p.id p.genSchema }
  let r4 :=
    match p.service with
    | some s => { r3 with services := assocInsert r3.services p.id s }
    | none => r3
  { r4 with hooks := addHooks r4.hooks p.hooks }

/-- The full mutation sequence of a successful Go `Registry.Register`:
`registerCore`, then `registerRoute` on each contributed route, admin
routes last with the `/admin` path prefix applied at enqueue time. -/
def registerBody {Ctx η σ : Type} (S : Storage σ) (r : Registry Ctx η σ)
    (p : PluginData Ctx η) : Registry Ctx η σ :=
  let r6 := p.routes.foldl registerRoute (registerCore S r p)
  (p.adminRoutes.map
    (fun rt => { rt with path := "/admin" ++ rt.path })).foldl registerRoute r6

/-- Go `Registry.Register`: refuse a duplicate id, refuse the first declared
dependency that is not yet registered, and only then mutate (see
`registerBody`). -/
def Register {Ctx η σ : Type} (S : Storage σ) (r : Registry Ctx η σ)
    (p : PluginData Ctx η) : Registry Ctx η σ × Option RegErr :=
  if (findPlugin r.plugins p.id).isSome then (r, some (.duplicateId p.id))
  else
    match p.deps.find? (fun d => (findPlugin r.plugins d).isNone) with
    | some d => (r, some (.missingDependency p.id d))
    | none => (registerBody S r p, none)

/-- A fresh registry before any plugin is registered, with NO router attached
(the host attaches it later via `SetRouter`). -/
def emptyRegistry {Ctx η σ : Type} (cm0 : CM σ) : Registry Ctx η σ :=
  { plugins := [], services := [], hooks := [], routerAttached := false,
    boundLog := [], routes := [], initialized := [], started := [], cm := cm0 }

/-- Go `Registry.IsEnabled`: a plugin is enabled iff it is started. -/
def IsEnabled {Ctx η σ : Type} (r : Registry Ctx η σ) (pluginID : String) : Bool :=
  r.started.contains pluginID

/-! ### The hook bus (`Registry.ExecuteHook`) -/

/-- The handler loop of Go `Registry.ExecuteHook`: each handler's output is
the next handler's input; on the first handler error the loop returns
`nil, err` (the nil interface, i.e. `GoValue.null`). -/
def runHandlers {Ctx : Type} (ctx : Ctx) :
    List (HookHandler Ctx) → GoValue → GoValue × Option GoError
  | [], result => (result, none)
  | h :: hs, result =>
    match h ctx result with
    | .ok r => runHandlers ctx hs r
    | .error e => (GoValue.null, some e)

/-- The handler list registered under a hook name (`r.hooks[hookName]`,
defaulting to the empty list). -/
def hookHandlers {Ctx η σ : Type} (r : Registry Ctx η σ) (name : String) :
    List (HookHandler Ctx) :=
  (assocLookup r.hooks name).getD []

/-- Go `Registry.ExecuteHook` (the spec's `TriggerHook`). -/
def ExecuteHook {Ctx η σ : Type} (r : Registry Ctx η σ) (ctx : Ctx)
    (hookName : String) (data : GoValue) : GoValue × Option GoError :=
  runHandlers ctx (hookHandlers r hookName) data

/-! ### Registration traces (for the route-binding and uniqueness claims) -/

/-- One call the host makes against the registry while wiring it up. -/
inductive RegOp (Ctx η : Type) where
  | register (p : PluginData Ctx η)
  | setRouter

/-- Run a sequence of `Register` / `SetRouter` calls (a failed `Register`
leaves the registry as the method left it). -/
def runOps {Ctx η σ : Type} (S : Storage σ) :
    Registry Ctx η σ → List (RegOp Ctx η) → Registry Ctx η σ
  | r, [] => r
  | r, .register p :: ops => runOps S (Register S r p).1 ops
  | r, .setRouter :: ops => runOps S (SetRouter r) ops

/-- The routes a plugin contributes on successful registration: its plain
routes, then its admin routes with the `/admin` prefix. -/
def routesOf {Ctx η : Type} (p : PluginData Ctx η) : List (Route η) :=
  p.routes ++ p.adminRoutes.map (fun rt => { rt with path := "/admin" ++ rt.path })

/-- All routes contributed by the successful `Register` calls of a trace, in
order. -/
def contributed {Ctx η σ : Type} (S : Storage σ) :
    Registry Ctx η σ → List (RegOp Ctx η) → List (Route η)
  | _, [] => []
  | r, .register p :: ops =>
    let res := Register S r p
    (if res.2 = none then routesOf p else []) ++ contributed S res.1 ops
  | r, .setRouter :: ops => contributed S (SetRouter r) ops

/-- The declared routes bound into the router so far, in bind order. -/
def boundRoutes {Ctx η σ : Type} (r : Registry Ctx η σ) : List (Route η) :=
  r.boundLog.map Prod.fst

/-! ### The lifecycle traversal (`Registry.Initialize` / `Registry.Start`)

`initializePlugin` and `startPlugin` in `registry.go` are the same
function up to which state table (`r.initialized` / `r.started`) and which
plugin method (`Init` / `Start`) they use, so they are embedded once,
parametrised by the outcome function `eOf` (`fun p => p.initErr` resp.
`fun p => p.startErr`).

The Go recursion has no explicit bound; it terminates because `Register`
only admits dependencies on already-registered plugins, so the dependency
graph of a reachable registry is a DAG.  The embedding carries a fuel
counter; running out of fuel is reported as the error `fuelExhausted`
(operationally: the unbounded Go recursion would not return).  For
reachable registries fuel `plugins.length + 1` is proved sufficient
(`advPlugin_total`). -/

/-- The lifecycle bookkeeping during one bootstrap phase: `flags` is the state
table (`r.initialized` resp. `r.started`) and `trace` is the order in which
the plugins' lifecycle methods were invoked (each entry runs to completion
before the next is invoked — the traversal is sequential). -/
structure LifeState where
  flags : List String
  trace : List String
deriving DecidableEq, Repr

/-- Error marker for fuel exhaustion (unreachable on registries built by
`Register`). -/
def fuelExhausted : GoError := "dependency recursion did not terminate"

/-- The dependency loop of Go `initializePlugin` / `startPlugin`: look each
declared dependency up (silently skipping ids that are not registered) and
advance it first, aborting on the first error.  `f` is the recursive call
at the remaining fuel. -/
def advDeps {Ctx η : Type} (ps : List (PluginData Ctx η))
    (f : LifeState → PluginData Ctx η → Option (LifeState × Option GoError)) :
    LifeState → List String → Option (LifeState × Option GoError)
  | st, [] => some (st, none)
  | st, d :: ds =>
    match findPlugin ps d with
    | none => advDeps ps f st ds
    | some dp =>
      match f st dp with
      | none => none
      | some (st1, some e) => some (st1, some e)
      | some (st1, none) => advDeps ps f st1 ds

/-- Go `initializePlugin` / `startPlugin`: return immediately when the plugin
is already flagged; otherwise advance its dependencies first, then invoke
its lifecycle method (recorded in the trace), and flag it on success. -/
def advPlugin {Ctx η : Type} (eOf : PluginData Ctx η → Option GoError)
    (ps : List (PluginData Ctx η)) :
    Nat → LifeState → PluginData Ctx η → Option (LifeState × Option GoError)
  | 0, _, _ => none
  | Nat.succ fuel, st, p =>
    if p.id ∈ st.flags then some (st, none)
    else
      match advDeps ps (advPlugin eOf ps fuel) st p.deps with
      | none => none
      | some (st1, some e) => some (st1, some e)
      | some (st1, none) =>
        match eOf p with
        | some e => some ({ st1 with trace := st1.trace ++ [p.id] }, some e)
        | none =>
          some ({ flags := st1.flags ++ [p.id], trace := st1.trace ++ [p.id] },
                none)

/-- The top-level loop of Go `Registry.Initialize` / `Registry.Start`: advance
every plugin in the (unspecified) map iteration order `order`, stopping at
the first error. -/
def advanceAll {Ctx η : Type} (eOf : PluginData Ctx η → Option GoError)
    (ps : List (PluginData Ctx η)) :
    List (PluginData Ctx η) → LifeState → LifeState × Option GoError
  | [], st => (st, none)
  | p :: rest, st =>
    match advPlugin eOf ps (ps.length + 1) st p with
    | none => (st, some fuelExhausted)
    | some (st1, some e) => (st1, some e)
    | some (st1, none) => advanceAll eOf ps rest st1

/-- Go `Registry.Initialize` from a fresh bootstrap (`r.initialized` empty),
iterating the plugin table in order `order`. -/
def initAllGo {Ctx η : Type} (ps order : List (PluginData Ctx η)) :
    LifeState × Option GoError :=
  advanceAll (fun p => p.initErr) ps order { flags := [], trace := [] }

/-- Go `Registry.Start` from a fresh bootstrap (`r.started` empty), iterating
the plugin table in order `order`. -/
def startAllGo {Ctx η : Type} (ps order : List (PluginData Ctx η)) :
    LifeState × Option GoError :=
  advanceAll (fun p => p.startErr) ps order { flags := [], trace := [] }

/-! ### `Registry.Stop` -/

/-- The running state of Go `Registry.Stop`: the `r.started` table, the
collected errors, and the order in which plugin `Stop` methods were
invoked. -/
structure StopState where
  started : List String
  errs : List GoError
  trace : List String
deriving DecidableEq, Repr

/-- One iteration of the loop in Go `Registry.Stop`: a started plugin has its
`Stop` invoked (any error is collected) and is then marked not-started
UNCONDITIONALLY — also when `Stop` returned an error. -/
def stopStep {Ctx η : Type} (st : StopState) (p : PluginData Ctx η) : StopState :=
  if st.started.contains p.id then
    { started := st.started.filter (fun x => !(x == p.id)),
      errs := st.errs ++ (match p.stopErr with | some e => [e] | none => []),
      trace := st.trace ++ [p.id] }
  else st

/-- Go `Registry.Stop`, iterating the plugin table in order `order`: run the
loop, then return the collected errors as one aggregate error when there
are any (`fmt.Errorf("errors stopping plugins: %v", errs)`). -/
def StopAll {Ctx η : Type} (order : List (PluginData Ctx η)) (st : StopState) :
    StopState × Option (List GoError) :=
  let fin := order.foldl stopStep st
  (fin, if fin.errs.isEmpty then none else some fin.errs)

/-! ## The auth coordinator (`pkg/plugin/auth.go`, `plugins/auth/plugin.go`)

`Req` is `*http.Request`; middleware wraps `http.Handler` values of type
`η`. -/

/-- The part of the `AuthProvider` interface the coordinator claims exercise:
`IsAuthenticated`, `RequireAuth` and `RequireRole`. -/
structure AuthProvider (Req η : Type) where
  name : String
  isAuthenticated : Req → Bool
  requireAuth : η → η
  requireRole : List String → η → η

/-- Go `NoAuthProvider`: allows all access — every request counts as
authenticated and both middleware factories return the identity wrapper
(`return next`). -/
def NoAuthProvider {Req η : Type} : AuthProvider Req η :=
  { name := "none",
    isAuthenticated := fun _ => true,
    requireAuth := fun next => next,
    requireRole := fun _ next => next }

/-- The provider table and active-provider name of the auth plugin
(`plugins/auth/plugin.go`). -/
structure AuthState (Req η : Type) where
  providers : List (String × AuthProvider Req η)
  active : String

/-- Go `Plugin.GetActiveProvider`: the provider registered under the active
name, falling back to `NoAuthProvider` when the name matches no registered
provider. -/
def GetActiveProvider {Req η : Type} (st : AuthState Req η) : AuthProvider Req η :=
  match assocLookup st.providers st.active with
  | some provider => provider
  | none => NoAuthProvider

/-- Go `Plugin.Middleware`: delegates to the active provider's `RequireAuth`. -/
def authMiddleware {Req η : Type} (st : AuthState Req η) : η → η :=
  (GetActiveProvider st).requireAuth

/-- Go `Plugin.RequireAdmin`: delegates to the active provider's
`RequireRole("admin")`. -/
def RequireAdmin {Req η : Type} (st : AuthState Req η) : η → η :=
  (GetActiveProvider st).requireRole ["admin"]

/-! ## Shared lemmas -/

theorem assocLookup_insert_self {α : Type} (l : List (String × α)) (k : String)
    (v : α) : assocLookup (assocInsert l k v) k = some v := by
  induction l with
  | nil => simp [assocInsert, assocLookup]
  | cons kv rest ih =>
    by_cases h : kv.1 = k
    · simp [assocInsert, assocLookup, h]
    · simp only [assocInsert, if_neg h]
      simp [assocLookup, h, ih]

/-! ## C10 — the NoAuthProvider fallback -/

/-- C10: when the active-provider name matches no registered provider,
`GetActiveProvider` returns a `NoAuthProvider`, whose `IsAuthenticated` is
constantly true and whose `RequireAuth` / `RequireRole` middlewares pass
every handler through unmodified, so `Middleware()` and `RequireAdmin()`
allow all access. -/
theorem noauth_fallback_allows_all {Req η : Type} (st : AuthState Req η)
    (h : assocLookup st.providers st.active = none) :
    GetActiveProvider st = NoAuthProvider ∧
    (∀ r : Req, (GetActiveProvider st).isAuthenticated r = true) ∧
    (∀ next : η, authMiddleware st next = next) ∧
    (∀ next : η, RequireAdmin st next = next) := by
  have hg : GetActiveProvider st = NoAuthProvider := by
    unfold GetActiveProvider
    rw [h]
  refine ⟨hg, ?_, ?_, ?_⟩
  · intro r
    rw [hg]
    rfl
  · intro next
    unfold authMiddleware
    rw [hg]
    rfl
  · intro next
    unfold RequireAdmin
    rw [hg]
    rfl

/-- A fresh auth plugin state before `Init` has run: no providers registered
yet, active name not matching any (the `NewPlugin` config sets
`ActiveProvider: "basic"`). -/
def authStateW : AuthState Unit Nat := { providers := [], active := "basic" }

/-- Witness for C10, at the pre-`Init` auth state: all middlewares are
pass-through and every request counts as authenticated. -/
theorem noauth_fallback_allows_all_witness :
    GetActiveProvider authStateW = NoAuthProvider ∧
    (∀ r : Unit, (GetActiveProvider authStateW).isAuthenticated r = true) ∧
    (∀ next : Nat, authMiddleware authStateW next = next) ∧
    (∀ next : Nat, RequireAdmin authStateW next = next) :=
  noauth_fallback_allows_all authStateW rfl

/-! ## C9 — string length validation -/

/-- C9 (amended): for a string-typed schema field carrying length bounds,
`validateField` enforces inclusive bounds on the UTF-8 BYTE length of the
string (Go `len(str)`), not on its code-point count. -/
theorem string_length_validation_uses_bytes (s : String) (fld : ConfigField)
    (v : Validation) (hty : fld.ftype = "string") (hv : fld.validation = some v) :
    validateField (.str s) fld = none ↔
      ((∀ m, v.minLen = some m → m ≤ s.utf8ByteSize) ∧
       (∀ M, v.maxLen = some M → s.utf8ByteSize ≤ M)) := by
  obtain ⟨mn, mx, mnl, mxl, rgx⟩ := v
  rcases mnl with _ | m <;> rcases mxl with _ | M <;>
    simp only [validateField, hty, hv]
  · simp
  · constructor
    · intro h
      have h2 : ¬ M < s.utf8ByteSize := fun hlt => by rw [if_pos hlt] at h; cases h
      refine ⟨(fun m hm => nomatch hm), fun M2 hM => ?_⟩
      cases hM
      omega
    · rintro ⟨-, h2⟩
      have := h2 M rfl
      simp [if_neg (by omega : ¬ M < s.utf8ByteSize)]
  · constructor
    · intro h
      have h1 : ¬ s.utf8ByteSize < m := fun hlt => by rw [if_pos hlt] at h; cases h
      refine ⟨fun m2 hm => ?_, (fun M hM => nomatch hM)⟩
      cases hm
      omega
    · rintro ⟨h1, -⟩
      have := h1 m rfl
      simp [if_neg (by omega : ¬ s.utf8ByteSize < m)]
  · constructor
    · intro h
      have h1 : ¬ s.utf8ByteSize < m := fun hlt => by rw [if_pos hlt] at h; cases h
      rw [if_neg h1] at h
      have h2 : ¬ M < s.utf8ByteSize := fun hlt => by rw [if_pos hlt] at h; cases h
      refine ⟨fun m2 hm => ?_, fun M2 hM => ?_⟩
      · cases hm
        omega
      · cases hM
        omega
    · rintro ⟨h1, h2⟩
      have hm := h1 m rfl
      have hM := h2 M rfl
      simp [if_neg (by omega : ¬ s.utf8ByteSize < m),
            if_neg (by omega : ¬ M < s.utf8ByteSize)]

/-- A string field requiring a minimum length of 2 (`MinLen = 2`). -/
def lenFld : ConfigField :=
  { name := "s", ftype := "string", label := "", description := "",
    default := none, required := false, options := [],
    validation := some { min := none, max := none, minLen := some 2,
                         maxLen := none, regex := "" } }

/-- Counterexample to C9 as stated: the one-code-point string `"é"` is below
the declared code-point minimum of 2, so under the claim the length check
must fail — but the code counts the 2 UTF-8 bytes of `"é"` and accepts it. -/
theorem string_length_not_codepoints :
    validateField (.str "é") lenFld = none ∧
    "é".length = 1 ∧ "é".utf8ByteSize = 2 := by
  refine ⟨rfl, by decide, by decide⟩

/-- Witness for the amended C9 at the two-byte two-code-point string `"ab"`:
with `MinLen = 2` the byte-length bound is met, so validation passes. -/
theorem string_length_validation_uses_bytes_witness :
    validateField (.str "ab") lenFld = none :=
  (string_length_validation_uses_bytes "ab" lenFld
      { min := none, max := none, minLen := some 2, maxLen := none, regex := "" }
      rfl rfl).mpr
    ⟨(fun m hm => by cases hm; decide), (fun M hM => nomatch hM)⟩

/-! ## C2 — id validation in the file-backed storage -/

/-- The file storage rooted at the default base path of `NewRegistry`. -/
def stdStore : JSONFileConfigStorage := { basePath := "configs/plugins" }

/-- An empty filesystem with an empty access log, in the environment where
every write succeeds. -/
def fsEmpty : FSState := { files := [], log := [], sched := [] }

/-- C2 is a code bug: the claim (and the spec) require `Save`, `Load` AND
`Delete` to reject traversal ids without touching the filesystem, but only
`Save` calls `validatePluginID`.  Evaluated at the traversal id `"../evil"`:
`Save` rejects it with no filesystem access (empty access log), while
`Load` performs a read and `Delete` performs a remove on the escaped path
`configs/plugins/../evil.json`. -/
theorem fileStorage_load_delete_bypass_validation :
    (fileSave stdStore fsEmpty "../evil" (GoValue.map []) =
       (fsEmpty, some "invalid plugin ID: ../evil")) ∧
    (fileLoad stdStore fsEmpty "../evil").1.log =
       [.read "configs/plugins/../evil.json"] ∧
    (fileDelete stdStore fsEmpty "../evil").1.log =
       [.remove "configs/plugins/../evil.json"] ∧
    validatePluginID "../evil" = some "invalid plugin ID: ../evil" := by
  refine ⟨rfl, by decide, by decide, rfl⟩

/-! ## C1 — the hook pipeline -/

/-- `HookChain ctx hs v r`: every handler in `hs` succeeds in sequence,
each handler's output being the next handler's input, turning `v` into `r`. -/
inductive HookChain {Ctx : Type} (ctx : Ctx) :
    List (HookHandler Ctx) → GoValue → GoValue → Prop where
  | nil (v : GoValue) : HookChain ctx [] v v
  | cons {h : HookHandler Ctx} {hs : List (HookHandler Ctx)} {v w u : GoValue} :
      h ctx v = .ok w → HookChain ctx hs w u → HookChain ctx (h :: hs) v u

theorem runHandlers_ok_iff {Ctx : Type} (ctx : Ctx) (hs : List (HookHandler Ctx))
    (v r : GoValue) :
    runHandlers ctx hs v = (r, none) ↔ HookChain ctx hs v r := by
  induction hs generalizing v with
  | nil =>
    constructor
    · intro h
      obtain ⟨h1, -⟩ := Prod.mk.injEq .. ▸ h
      exact h1 ▸ HookChain.nil v
    · intro hc
      cases hc
      rfl
  | cons h hs ih =>
    constructor
    · intro he
      simp only [runHandlers] at he
      cases hE : h ctx v with
      | ok w =>
        rw [hE] at he
        exact .cons hE ((ih w).mp he)
      | error e =>
        rw [hE] at he
        cases he
    · intro hc
      cases hc with
      | cons hE htail =>
        simp only [runHandlers, hE]
        exact (ih _).mpr htail

theorem runHandlers_error {Ctx : Type} (ctx : Ctx) (hs : List (HookHandler Ctx))
    (v w : GoValue) (e : GoError) :
    runHandlers ctx hs v = (w, some e) →
    w = GoValue.null ∧
      ∃ hs1 h hs2 u, hs = hs1 ++ h :: hs2 ∧ HookChain ctx hs1 v u ∧
        h ctx u = Except.error e := by
  induction hs generalizing v with
  | nil =>
    intro h
    cases h
  | cons h hs ih =>
    intro he
    simp only [runHandlers] at he
    cases hE : h ctx v with
    | ok w2 =>
      rw [hE] at he
      obtain ⟨hw, hs1, h1, hs2, u, heq, hchain, herr⟩ := ih w2 he
      exact ⟨hw, h :: hs1, h1, hs2, u, by simp [heq], .cons hE hchain, herr⟩
    | error e2 =>
      rw [hE] at he
      cases he
      exact ⟨rfl, [], h, hs, v, rfl, .nil v, hE⟩

theorem hookInsert_lookup {Ctx : Type} (tbl : List (String × List (HookHandler Ctx)))
    (n : String) (h : HookHandler Ctx) (m : String) :
    (assocLookup (hookInsert tbl n h) m).getD [] =
      (assocLookup tbl m).getD [] ++ (if n = m then [h] else []) := by
  induction tbl with
  | nil => by_cases hnm : n = m <;> simp [hookInsert, assocLookup, hnm]
  | cons kv rest ih =>
    obtain ⟨k, hs⟩ := kv
    by_cases hk : k = n
    · subst hk
      by_cases hm : k = m
      · subst hm
        simp [hookInsert, assocLookup]
      · simp [hookInsert, assocLookup, hm]
    · by_cases hm : k = m
      · subst hm
        have hnm : ¬ n = k := fun hh => hk hh.symm
        simp [hookInsert, assocLookup, hk, hnm]
      · simp [hookInsert, assocLookup, hk, hm, ih]

theorem addHooks_lookup {Ctx : Type} (tbl : List (String × List (HookHandler Ctx)))
    (l : List (String × HookHandler Ctx)) (m : String) :
    (assocLookup (addHooks tbl l) m).getD [] =
      (assocLookup tbl m).getD [] ++
        (l.filter (fun nh => nh.1 == m)).map Prod.snd := by
  induction l generalizing tbl with
  | nil => simp [addHooks]
  | cons x l ih =>
    rw [show addHooks tbl (x :: l) = addHooks (hookInsert tbl x.1 x.2) l from rfl]
    rw [ih (hookInsert tbl x.1 x.2), hookInsert_lookup]
    by_cases hx : x.1 = m
    · simp [List.filter_cons, hx, List.append_assoc]
    · simp [List.filter_cons, hx]

/-- `List.foldl` preserves any state projection its step function preserves. -/
theorem foldl_preserve {α β γ : Type} (f : β → α → β) (proj : β → γ)
    (hstep : ∀ b a, proj (f b a) = proj b) :
    ∀ (l : List α) (b : β), proj (List.foldl f b l) = proj b := by
  intro l
  induction l with
  | nil => intro b; rfl
  | cons a l ih => intro b; rw [List.foldl_cons, ih, hstep]

theorem registerRoute_hooks {Ctx η σ : Type} (r : Registry Ctx η σ) (rt : Route η) :
    (registerRoute r rt).hooks = r.hooks := by
  unfold registerRoute
  split <;> rfl

theorem registerBody_hooks {Ctx η σ : Type} (S : Storage σ) (r : Registry Ctx η σ)
    (p : PluginData Ctx η) :
    (registerBody S r p).hooks = addHooks r.hooks p.hooks := by
  unfold registerBody
  rw [foldl_preserve registerRoute (fun x => x.hooks) registerRoute_hooks,
      foldl_preserve registerRoute (fun x => x.hooks) registerRoute_hooks]
  unfold registerCore
  cases p.service <;> rfl

/-- Successful `Register` returns the mutated registry of `registerBody`. -/
theorem Register_success_eq {Ctx η σ : Type} (S : Storage σ) (r : Registry Ctx η σ)
    (p : PluginData Ctx η) (hok : (Register S r p).2 = none) :
    Register S r p = (registerBody S r p, none) := by
  unfold Register at hok ⊢
  cases h1 : (findPlugin r.plugins p.id).isSome with
  | true => rw [if_pos h1] at hok; cases hok
  | false =>
    rw [if_neg (by simp [h1])] at hok ⊢
    cases h2 : p.deps.find? (fun d => (findPlugin r.plugins d).isNone) with
    | some d => rw [h2] at hok; cases hok
    | none => rfl

/-- C1 (amended): `TriggerHook` (`ExecuteHook`) applies the handlers
registered under the hook name sequentially, each handler's output being
the next handler's input, in registration order (a plugin's handlers are
appended on `Register`); a run with no error is exactly a full successful
chain; if some handler returns an error, the pipeline halts at that handler
and the call returns that error together with a NIL value (`GoValue.null`)
— the last successful intermediate value is discarded, not returned. -/
theorem triggerHook_pipeline {Ctx η σ : Type} (S : Storage σ) :
    (∀ (r : Registry Ctx η σ) (ctx : Ctx) (name : String) (v res : GoValue),
        ExecuteHook r ctx name v = (res, none) ↔
          HookChain ctx (hookHandlers r name) v res) ∧
    (∀ (r : Registry Ctx η σ) (ctx : Ctx) (name : String) (v w : GoValue)
        (e : GoError),
        ExecuteHook r ctx name v = (w, some e) →
          w = GoValue.null ∧
          ∃ hs1 h hs2 u, hookHandlers r name = hs1 ++ h :: hs2 ∧
            HookChain ctx hs1 v u ∧ h ctx u = Except.error e) ∧
    (∀ (r : Registry Ctx η σ) (p : PluginData Ctx η) (name : String),
        (Register S r p).2 = none →
          hookHandlers (Register S r p).1 name =
            hookHandlers r name ++
              (p.hooks.filter (fun nh => nh.1 == name)).map Prod.snd) := by
  refine ⟨?_, ?_, ?_⟩
  · intro r ctx name v res
    exact runHandlers_ok_iff ctx (hookHandlers r name) v res
  · intro r ctx name v w e he
    exact runHandlers_error ctx (hookHandlers r name) v w e he
  · intro r p name hok
    rw [Register_success_eq S r p hok]
    show (assocLookup (registerBody S r p).hooks name).getD [] = _
    rw [registerBody_hooks]
    exact addHooks_lookup r.hooks p.hooks name

/-- A handler that always fails. -/
def hFail : HookHandler Unit := fun _ _ => .error "boom"

/-- An empty config manager over the in-memory storage. -/
def cmMem : CM MemSt := { store := [], schemas := [], cache := [] }

/-- A hookable plugin registering `hFail` under the hook name `"before"`. -/
def pHook : PluginData Unit Unit :=
  { id := "h", deps := [], defaultConfig := .map [], genSchema := ⟨[]⟩,
    service := none, hooks := [("before", hFail)], routes := [],
    adminRoutes := [], initErr := none, startErr := none, stopErr := none }

/-- The registry after registering `pHook`. -/
def rHook : Registry Unit Unit MemSt :=
  (Register memStorage (emptyRegistry cmMem) pHook).1

/-- Counterexample to C1 as stated: triggering `"before"` on input `"x"` hits
the failing first handler, and `ExecuteHook` returns `(nil, error)` — NOT
the original input `"x"` that the claim requires when the first handler
fails. -/
theorem triggerHook_pipeline_cex :
    ExecuteHook rHook () "before" (.str "x") = (GoValue.null, some "boom") ∧
    GoValue.null ≠ GoValue.str "x" :=
  ⟨rfl, (fun h => GoValue.noConfusion h)⟩

/-- Witness for the amended C1, at the registry `rHook` whose `"before"` hook
fails: the error run decomposes into an empty successful prefix and the
failing handler, and the returned value is nil. -/
theorem triggerHook_pipeline_witness :
    GoValue.null = GoValue.null ∧
    ∃ hs1 h hs2 u, hookHandlers rHook "before" = hs1 ++ h :: hs2 ∧
      HookChain () hs1 (GoValue.str "x") u ∧ h () u = Except.error "boom" :=
  (triggerHook_pipeline memStorage).2.1 rHook () "before" (GoValue.str "x")
    GoValue.null "boom" rfl

/-! ## C4 — Register failure semantics -/

theorem registerRoute_plugins {Ctx η σ : Type} (r : Registry Ctx η σ) (rt : Route η) :
    (registerRoute r rt).plugins = r.plugins := by
  unfold registerRoute
  split <;> rfl

theorem registerBody_plugins {Ctx η σ : Type} (S : Storage σ) (r : Registry Ctx η σ)
    (p : PluginData Ctx η) :
    (registerBody S r p).plugins = r.plugins ++ [p] := by
  unfold registerBody
  rw [foldl_preserve registerRoute (fun x => x.plugins) registerRoute_plugins,
      foldl_preserve registerRoute (fun x => x.plugins) registerRoute_plugins]
  unfold registerCore
  cases p.service <;> rfl

theorem SetRouter_plugins {Ctx η σ : Type} (r : Registry Ctx η σ) :
    (SetRouter r).plugins = r.plugins := by
  unfold SetRouter
  exact foldl_preserve registerRoute (fun x => x.plugins) registerRoute_plugins
    r.routes _

theorem findPlugin_append {Ctx η : Type} (l1 l2 : List (PluginData Ctx η))
    (x : String) :
    findPlugin (l1 ++ l2) x =
      match findPlugin l1 x with
      | some p => some p
      | none => findPlugin l2 x := by
  induction l1 with
  | nil => simp [findPlugin]
  | cons p rest ih => by_cases h : p.id = x <;> simp [findPlugin, h, ih]

theorem findPlugin_append_self {Ctx η : Type} (l : List (PluginData Ctx η))
    (p : PluginData Ctx η) :
    (findPlugin (l ++ [p]) p.id).isSome = true := by
  rw [findPlugin_append]
  cases findPlugin l p.id <;> simp [findPlugin]

/-- `Register` on an id that is already present fails with `duplicateId`. -/
theorem Register_of_dup {Ctx η σ : Type} (S : Storage σ) (r : Registry Ctx η σ)
    (p : PluginData Ctx η) (h : (findPlugin r.plugins p.id).isSome = true) :
    Register S r p = (r, some (.duplicateId p.id)) := by
  unfold Register
  rw [if_pos h]

theorem Register_preserves_found {Ctx η σ : Type} (S : Storage σ)
    (r : Registry Ctx η σ) (p : PluginData Ctx η) (x : String)
    (h : (findPlugin r.plugins x).isSome = true) :
    (findPlugin (Register S r p).1.plugins x).isSome = true := by
  unfold Register
  by_cases h1 : (findPlugin r.plugins p.id).isSome = true
  · rw [if_pos h1]; exact h
  · rw [if_neg h1]
    cases h2 : p.deps.find? (fun d => (findPlugin r.plugins d).isNone) with
    | some d => exact h
    | none =>
      show (findPlugin (registerBody S r p).plugins x).isSome = true
      rw [registerBody_plugins, findPlugin_append]
      cases h3 : findPlugin r.plugins x with
      | some q => simp
      | none => rw [h3] at h; cases h

theorem runOps_preserves_found {Ctx η σ : Type} (S : Storage σ)
    (ops : List (RegOp Ctx η)) :
    ∀ (r : Registry Ctx η σ) (x : String),
      (findPlugin r.plugins x).isSome = true →
      (findPlugin (runOps S r ops).plugins x).isSome = true := by
  induction ops with
  | nil => intro r x h; exact h
  | cons op ops ih =>
    intro r x h
    cases op with
    | register p => exact ih _ x (Register_preserves_found S r p x h)
    | setRouter =>
      refine ih _ x ?_
      rw [SetRouter_plugins]
      exact h

/-- C4 (amended): `Register` refuses a duplicate id; it refuses a plugin
declaring a dependency that is not currently registered; a failed
`Register` leaves the registry exactly unchanged; and of any two `Register`
calls with equal plugin ids AT MOST one succeeds (once a registration of an
id succeeds, every later call with that id fails, through any interleaving
of further calls). -/
theorem register_failure_semantics {Ctx η σ : Type} (S : Storage σ) :
    (∀ (r : Registry Ctx η σ) (p : PluginData Ctx η),
        (findPlugin r.plugins p.id).isSome = true →
        Register S r p = (r, some (.duplicateId p.id))) ∧
    (∀ (r : Registry Ctx η σ) (p : PluginData Ctx η) (d : String),
        d ∈ p.deps → findPlugin r.plugins d = none →
        ∃ e, Register S r p = (r, some e)) ∧
    (∀ (r : Registry Ctx η σ) (p : PluginData Ctx η) (e : RegErr),
        (Register S r p).2 = some e → (Register S r p).1 = r) ∧
    (∀ (r : Registry Ctx η σ) (p p2 : PluginData Ctx η) (ops : List (RegOp Ctx η)),
        p2.id = p.id → (Register S r p).2 = none →
        ((Register S (runOps S (Register S r p).1 ops) p2).2).isSome = true) := by
  refine ⟨?_, ?_, ?_, ?_⟩
  · intro r p h
    exact Register_of_dup S r p h
  · intro r p d hd hmiss
    by_cases hdup : (findPlugin r.plugins p.id).isSome = true
    · exact ⟨.duplicateId p.id, Register_of_dup S r p hdup⟩
    · have hfind : (p.deps.find? (fun d => (findPlugin r.plugins d).isNone)).isSome = true := by
        rw [List.find?_isSome]
        exact ⟨d, hd, by simp [hmiss]⟩
      obtain ⟨d0, hd0⟩ := Option.isSome_iff_exists.mp hfind
      refine ⟨.missingDependency p.id d0, ?_⟩
      unfold Register
      rw [if_neg hdup, hd0]
  · intro r p e he
    unfold Register at he ⊢
    by_cases h1 : (findPlugin r.plugins p.id).isSome = true
    · rw [if_pos h1]
    · rw [if_neg h1] at he ⊢
      cases h2 : p.deps.find? (fun d => (findPlugin r.plugins d).isNone) with
      | some d => rfl
      | none => rw [h2] at he; cases he
  · intro r p p2 ops hid hok
    have h1 : (findPlugin (Register S r p).1.plugins p2.id).isSome = true := by
      rw [Register_success_eq S r p hok, hid]
      show (findPlugin (registerBody S r p).plugins p.id).isSome = true
      rw [registerBody_plugins]
      exact findPlugin_append_self r.plugins p
    have h2 := runOps_preserves_found S ops (Register S r p).1 p2.id h1
    rw [Register_of_dup S _ p2 h2]
    rfl

/-- A plugin declaring a dependency on the absent id `"a"`. -/
def pB : PluginData Unit Unit :=
  { id := "b", deps := ["a"], defaultConfig := .map [], genSchema := ⟨[]⟩,
    service := none, hooks := [], routes := [], adminRoutes := [],
    initErr := none, startErr := none, stopErr := none }

/-- Counterexample to C4 as stated: two `Register` calls with the equal id
`"b"` (whose dependency `"a"` is absent) BOTH fail — so it is not true that
of any two calls with equal ids exactly one succeeds.  Afterwards `List()`
is empty (the S2 scenario). -/
theorem register_exactly_one_cex :
    (Register memStorage (emptyRegistry cmMem) pB).2 =
      some (.missingDependency "b" "a") ∧
    (Register memStorage (Register memStorage (emptyRegistry cmMem) pB).1 pB).2 =
      some (.missingDependency "b" "a") ∧
    (Register memStorage (emptyRegistry cmMem) pB).1.plugins = [] :=
  ⟨rfl, rfl, rfl⟩

/-- Witness for the amended C4: a duplicate registration of `pHook` fails with
`duplicateId`; registering `pB` (missing dependency) fails leaving the
registry unchanged; and a second registration of the id `"h"` after its
successful registration fails. -/
theorem register_failure_semantics_witness :
    Register memStorage rHook pHook = (rHook, some (.duplicateId "h")) ∧
    (∃ e, Register memStorage (emptyRegistry cmMem) pB =
            (emptyRegistry cmMem, some e)) ∧
    ((Register memStorage
        (runOps memStorage (Register memStorage (emptyRegistry cmMem) pHook).1 [])
        pHook).2).isSome = true :=
  ⟨(register_failure_semantics memStorage).1 rHook pHook rfl,
   (register_failure_semantics memStorage).2.1 (emptyRegistry cmMem) pB "a"
     (by simp [pB]) rfl,
   (register_failure_semantics memStorage).2.2.2 (emptyRegistry cmMem) pHook pHook
     [] rfl rfl⟩

/-! ## C3 — default config materialization -/

theorem registerRoute_cm {Ctx η σ : Type} (r : Registry Ctx η σ) (rt : Route η) :
    (registerRoute r rt).cm = r.cm := by
  unfold registerRoute
  split <;> rfl

theorem registerBody_cm {Ctx η σ : Type} (S : Storage σ) (r : Registry Ctx η σ)
    (p : PluginData Ctx η) :
    (registerBody S r p).cm =
      RegisterSchema (SetConfig S r.cm p.id p.defaultConfig).1 p.id p.genSchema := by
  unfold registerBody
  rw [foldl_preserve registerRoute (fun x => x.cm) registerRoute_cm,
      foldl_preserve registerRoute (fun x => x.cm) registerRoute_cm]
  unfold registerCore
  cases p.service <;> rfl

/-- C3 (amended): for a registered plugin with no stored config record, the
declared default is persisted to storage EAGERLY during `Register` itself
(via the registry's `SetConfig` call) — not lazily at the first
`GetConfig`; the first `GetConfig` then returns the declared default (from
the cache that same `SetConfig` call populated), and a second `GetConfig`
returns the same value. -/
theorem getConfig_default_materialization {Ctx η σ : Type} (S : Storage σ)
    (r : Registry Ctx η σ) (p : PluginData Ctx η) (dm : List (String × GoValue))
    (hfresh : findPlugin r.plugins p.id = none)
    (hdeps : p.deps.find? (fun d => (findPlugin r.plugins d).isNone) = none)
    (hdefault : p.defaultConfig = .map dm)
    (hnoschema : assocLookup r.cm.schemas p.id = none)
    (hsave : (S.save r.cm.store p.id (.map dm)).2 = none) :
    (Register S r p).2 = none ∧
    (Register S r p).1.cm.store = (S.save r.cm.store p.id (.map dm)).1 ∧
    (GetConfig S (Register S r p).1.cm p.id).1 = some (GoValue.map dm) ∧
    (GetConfig S (GetConfig S (Register S r p).1.cm p.id).2 p.id).1 =
      some (GoValue.map dm) := by
  have hsucc : (Register S r p).2 = none := by
    unfold Register
    rw [if_neg (by simp [hfresh]), hdeps]
  have hset : (SetConfig S r.cm p.id p.defaultConfig).1 =
      { r.cm with store := (S.save r.cm.store p.id (.map dm)).1,
                  cache := assocInsert r.cm.cache p.id (GoValue.map dm) } := by
    rw [hdefault]
    unfold SetConfig
    rw [hnoschema]
    unfold setConfigSave
    simp only [toMap]
    rcases hS : S.save r.cm.store p.id (GoValue.map dm) with ⟨st1, serr⟩
    have : serr = none := by rw [hS] at hsave; exact hsave
    subst this
    simp [hS]
  have hcm : (Register S r p).1.cm =
      RegisterSchema (SetConfig S r.cm p.id p.defaultConfig).1 p.id p.genSchema := by
    rw [Register_success_eq S r p hsucc]
    exact registerBody_cm S r p
  have hcache : (Register S r p).1.cm.cache =
      assocInsert r.cm.cache p.id (GoValue.map dm) := by
    rw [hcm, hset]
    rfl
  have hstore : (Register S r p).1.cm.store =
      (S.save r.cm.store p.id (.map dm)).1 := by
    rw [hcm, hset]
    rfl
  have hget1 : GetConfig S (Register S r p).1.cm p.id =
      (some (GoValue.map dm), (Register S r p).1.cm) := by
    unfold GetConfig
    rw [hcache, assocLookup_insert_self]
  refine ⟨hsucc, hstore, ?_, ?_⟩
  · rw [hget1]
  · rw [hget1]
    show (GetConfig S (Register S r p).1.cm p.id).1 = _
    rw [hget1]

/-- A plugin whose declared default config is `{"a": 1}`. -/
def pDef : PluginData Unit Unit :=
  { id := "p", deps := [], defaultConfig := .map [("a", .num 1)],
    genSchema := ⟨[]⟩, service := none, hooks := [], routes := [],
    adminRoutes := [], initErr := none, startErr := none, stopErr := none }

/-- Counterexample to C3 as stated: right after `Register` returns — before
any `GetConfig` call has been made — the storage backend already holds the
plugin's default config record (the registry's `Register` persists it
eagerly), so the default is NOT "persisted lazily at that first access
(not earlier)". -/
theorem default_not_lazily_persisted_cex :
    (emptyRegistry cmMem : Registry Unit Unit MemSt).cm.store = [] ∧
    (Register memStorage (emptyRegistry cmMem) pDef).1.cm.store =
      [("p", GoValue.map [("a", GoValue.num 1)])] :=
  ⟨rfl, rfl⟩

/-- Witness for the amended C3, at the plugin `pDef` over the in-memory
storage: registration succeeds, persists the default, and both the first
and second `GetConfig` return it. -/
theorem getConfig_default_materialization_witness :
    (Register memStorage (emptyRegistry cmMem) pDef).2 = none ∧
    (Register memStorage (emptyRegistry cmMem) pDef).1.cm.store =
      (memStorage.save (emptyRegistry cmMem :
          Registry Unit Unit MemSt).cm.store "p" (.map [("a", .num 1)])).1 ∧
    (GetConfig memStorage (Register memStorage (emptyRegistry cmMem) pDef).1.cm
        "p").1 = some (GoValue.map [("a", GoValue.num 1)]) ∧
    (GetConfig memStorage
        (GetConfig memStorage
          (Register memStorage (emptyRegistry cmMem) pDef).1.cm "p").2 "p").1 =
      some (GoValue.map [("a", GoValue.num 1)]) :=
  getConfig_default_materialization memStorage (emptyRegistry cmMem) pDef
    [("a", .num 1)] rfl rfl rfl rfl rfl

/-! ## C7 — SetConfig atomicity -/

theorem validateFields_first_failure (m : List (String × GoValue))
    (fields : List ConfigField) (fn : String) (fe : FieldErr) :
    validateFields m fields = some (.field fn fe) →
    ∃ l1 fld l2, fields = l1 ++ fld :: l2 ∧ fld.name = fn ∧
      checkField m fld = some fe ∧ ∀ g ∈ l1, checkField m g = none := by
  induction fields with
  | nil => intro h; cases h
  | cons f rest ih =>
    intro h
    simp only [validateFields] at h
    cases hc : checkField m f with
    | some e =>
      rw [hc] at h
      cases h
      exact ⟨[], f, rest, rfl, rfl, hc, by simp⟩
    | none =>
      rw [hc] at h
      obtain ⟨l1, fld, l2, heq, hname, hfe, hall⟩ := ih h
      refine ⟨f :: l1, fld, l2, by simp [heq], hname, hfe, ?_⟩
      intro g hg
      rcases List.mem_cons.mp hg with hgf | hgl
      · rw [hgf]; exact hc
      · exact hall g hgl

/-- A failing backend save makes `SetConfig` return the wrapped save error,
keep the backend state the save left behind, and leave the cache untouched. -/
theorem SetConfig_save_error {σ : Type} (S : Storage σ) (cm : CM σ) (id : String)
    (mv : List (String × GoValue)) (st1 : σ) (e : GoError)
    (hval : ∀ sch, assocLookup cm.schemas id = some sch →
        validateConfig (.map mv) sch = none)
    (hsv : S.save cm.store id (.map mv) = (st1, some e)) :
    SetConfig S cm id (.map mv) = ({ cm with store := st1 }, some (.saveFailed e)) := by
  have hbody : setConfigSave S cm id (.map mv) =
      ({ cm with store := st1 }, some (.saveFailed e)) := by
    unfold setConfigSave
    simp only [toMap]
    rw [hsv]
  unfold SetConfig
  split
  · rename_i sch hl
    rw [hval sch hl]
    exact hbody
  · exact hbody

/-- A filesystem holding a stored config for plugin `"p"`, in an environment
where the next `os.WriteFile` fails mid-write (after the `O_TRUNC` open). -/
def fsPrior : FSState :=
  { files := [("configs/plugins/p.json", .doc (.map [("port", .num 8080)]))],
    log := [],
    sched := [.failMid "disk full"] }

/-- A config manager over that filesystem with the prior config cached. -/
def cmDisk : CM FSState :=
  { store := fsPrior, schemas := [], cache := [("p", .map [("port", .num 8080)])] }

/-- Counterexample to the original C7: against the file backend, a `SetConfig`
whose `os.WriteFile` fails mid-write returns the save error and leaves the
cache unchanged, but the STORED config is not unchanged: the file for `"p"`,
which loaded the prior value before the call, fails to parse afterwards —
the failed save destroyed it (`O_TRUNC` truncation before the failing
write). -/
theorem setConfig_save_error_destroys_stored_cex :
    (SetConfig (fileStorage stdStore) cmDisk "p" (.map [("port", .num 9090)])).2 =
      some (.saveFailed "failed to write config file: disk full") ∧
    (SetConfig (fileStorage stdStore) cmDisk "p"
        (.map [("port", .num 9090)])).1.cache = cmDisk.cache ∧
    (fileLoad stdStore cmDisk.store "p").2 = .ok (.map [("port", .num 8080)]) ∧
    (fileLoad stdStore (SetConfig (fileStorage stdStore) cmDisk "p"
        (.map [("port", .num 9090)])).1.store "p").2 =
      .error "failed to parse config JSON" :=
  ⟨rfl, rfl, rfl, rfl⟩

/-- C7 (amended): any failing `SetConfig` leaves the IN-MEMORY CACHE
unchanged; a schema-validation failure returns a validation error naming the
FIRST failing field and leaves the whole manager (cache and storage)
unchanged, so a subsequent `GetConfig` returns the prior value; a backend
save failure whose save call did not mutate the backend likewise leaves the
manager unchanged (and the in-memory backend's save never fails); but
against the FILE backend the STORED config is guaranteed unchanged only when
the failing write never opened the file — a mid-write failure returns the
save error with the cache still intact while the stored config file is left
corrupted by the `O_TRUNC` truncation. -/
theorem setConfig_atomic_on_failure {σ : Type} (S : Storage σ) :
    (∀ (cm : CM σ) (id : String) (cfg : GoValue) (cm2 : CM σ) (err : CfgErr),
        SetConfig S cm id cfg = (cm2, some err) → cm2.cache = cm.cache) ∧
    (∀ (cm : CM σ) (id : String) (cfg : GoValue) (sch : ConfigSchema) (e : VErr),
        assocLookup cm.schemas id = some sch → validateConfig cfg sch = some e →
        SetConfig S cm id cfg = (cm, some (.validation e)) ∧
        (GetConfig S (SetConfig S cm id cfg).1 id).1 = (GetConfig S cm id).1) ∧
    (∀ (m : List (String × GoValue)) (sch : ConfigSchema) (fn : String)
        (fe : FieldErr),
        validateConfig (.map m) sch = some (.field fn fe) →
        ∃ l1 fld l2, sch.fields = l1 ++ fld :: l2 ∧ fld.name = fn ∧
          checkField m fld = some fe ∧ ∀ g ∈ l1, checkField m g = none) ∧
    (∀ (cm : CM σ) (id : String) (mv : List (String × GoValue)) (e : GoError),
        (∀ sch, assocLookup cm.schemas id = some sch →
            validateConfig (.map mv) sch = none) →
        S.save cm.store id (.map mv) = (cm.store, some e) →
        SetConfig S cm id (.map mv) = (cm, some (.saveFailed e)) ∧
        (GetConfig S (SetConfig S cm id (.map mv)).1 id).1 =
          (GetConfig S cm id).1) ∧
    (∀ (st : MemSt) (id : String) (v : GoValue), (memSave st id v).2 = none) ∧
    (∀ (js : JSONFileConfigStorage) (cm : CM FSState) (id : String)
        (mv : List (String × GoValue)) (e : GoError) (rest : List WriteOutcome),
        (∀ sch, assocLookup cm.schemas id = some sch →
            validateConfig (.map mv) sch = none) →
        validatePluginID id = none →
        cm.store.sched = WriteOutcome.failOpen e :: rest →
        SetConfig (fileStorage js) cm id (.map mv) =
          ({ cm with store := { cm.store with
               log := cm.store.log ++ [FSAccess.write (configPath js id)],
               sched := rest } },
           some (.saveFailed ("failed to write config file: " ++ e)))) ∧
    (∀ (js : JSONFileConfigStorage) (cm : CM FSState) (id : String)
        (mv : List (String × GoValue)) (e : GoError) (rest : List WriteOutcome),
        (∀ sch, assocLookup cm.schemas id = some sch →
            validateConfig (.map mv) sch = none) →
        validatePluginID id = none →
        cm.store.sched = WriteOutcome.failMid e :: rest →
        SetConfig (fileStorage js) cm id (.map mv) =
          ({ cm with store := { cm.store with
               files := assocInsert cm.store.files (configPath js id)
                          FileContent.corrupt,
               log := cm.store.log ++ [FSAccess.write (configPath js id)],
               sched := rest } },
           some (.saveFailed ("failed to write config file: " ++ e))) ∧
        assocLookup (SetConfig (fileStorage js) cm id (.map mv)).1.store.files
          (configPath js id) = some FileContent.corrupt) := by
  refine ⟨?_, ?_, ?_, ?_, ?_, ?_, ?_⟩
  · intro cm id cfg cm2 err he
    unfold SetConfig at he
    have hbody : ∀ cm2 err, setConfigSave S cm id cfg = (cm2, some err) →
        cm2.cache = cm.cache := by
      intro cm3 err3 he3
      unfold setConfigSave at he3
      split at he3
      · cases he3
        rfl
      · split at he3
        · cases he3
          rfl
        · cases he3
    split at he
    · split at he
      · cases he
        rfl
      · exact hbody cm2 err he
    · exact hbody cm2 err he
  · intro cm id cfg sch e hl hv
    have heq : SetConfig S cm id cfg = (cm, some (.validation e)) := by
      unfold SetConfig
      split
      · rename_i sch2 hl2
        rw [hl] at hl2
        cases hl2
        rw [hv]
      · rename_i hl2
        rw [hl] at hl2
        cases hl2
    exact ⟨heq, by rw [heq]⟩
  · intro m sch fn fe h
    exact validateFields_first_failure m sch.fields fn fe h
  · intro cm id mv e hval hsv
    have heq : SetConfig S cm id (.map mv) = (cm, some (.saveFailed e)) :=
      SetConfig_save_error S cm id mv cm.store e hval hsv
    exact ⟨heq, by rw [heq]⟩
  · intro st id v
    rfl
  · intro js cm id mv e rest hval hid hsched
    have hw : fileSave js cm.store id (.map mv) =
        ({ cm.store with
             log := cm.store.log ++ [FSAccess.write (configPath js id)],
             sched := rest },
         some ("failed to write config file: " ++ e)) := by
      unfold fileSave
      rw [hid]
      unfold writeFile
      rw [hsched]
    exact SetConfig_save_error (fileStorage js) cm id mv _ _ hval hw
  · intro js cm id mv e rest hval hid hsched
    have hw : fileSave js cm.store id (.map mv) =
        ({ cm.store with
             files := assocInsert cm.store.files (configPath js id)
                        FileContent.corrupt,
             log := cm.store.log ++ [FSAccess.write (configPath js id)],
             sched := rest },
         some ("failed to write config file: " ++ e)) := by
      unfold fileSave
      rw [hid]
      unfold writeFile
      rw [hsched]
    have heq := SetConfig_save_error (fileStorage js) cm id mv _ _ hval hw
    refine ⟨heq, ?_⟩
    rw [heq]
    exact assocLookup_insert_self cm.store.files (configPath js id)
      FileContent.corrupt

/-- A schema requiring a numeric field `port` with inclusive range 1..65535. -/
def portSchema : ConfigSchema :=
  ⟨[{ name := "port", ftype := "number", label := "", description := "",
      default := none, required := true, options := [],
      validation := some { min := some 1, max := some 65535, minLen := none,
                           maxLen := none, regex := "" } }]⟩

/-- A config manager holding the `port` schema and a prior config for `"p"`. -/
def cmPort : CM MemSt :=
  { store := [("p", .map [("port", .num 8080)])],
    schemas := [("p", portSchema)],
    cache := [("p", .map [("port", .num 8080)])] }

/-- A storage backend whose `Save` always fails without mutating. -/
def failStorage : Storage Unit :=
  { load := fun s _ => (s, .error "down"),
    save := fun s _ _ => (s, some "disk full") }

/-- A config manager over the failing backend with a prior cached config. -/
def cmFail : CM Unit :=
  { store := (), schemas := [], cache := [("q", .str "old")] }

/-- Witness for C7 (the S5 scenario, a failing save, and a mid-write file
failure): `SetConfig` with `port = 70000` is rejected with a validation error
naming field `"port"`, the manager is unchanged and `GetConfig` still returns
the prior value; a `SetConfig` whose backend save fails without mutating
returns the storage error with the manager unchanged; and a `SetConfig`
against the file backend whose write fails mid-way returns the wrapped save
error, keeps the cache, and leaves the stored file corrupted. -/
theorem setConfig_atomic_on_failure_witness :
    (SetConfig memStorage cmPort "p" (.map [("port", .num 70000)]) =
       (cmPort, some (.validation (.field "port" (.aboveMax 65535))))) ∧
    (GetConfig memStorage
        (SetConfig memStorage cmPort "p" (.map [("port", .num 70000)])).1 "p").1 =
      (GetConfig memStorage cmPort "p").1 ∧
    (SetConfig failStorage cmFail "q" (.map []) =
       (cmFail, some (.saveFailed "disk full"))) ∧
    (GetConfig failStorage
        (SetConfig failStorage cmFail "q" (.map [])).1 "q").1 =
      (GetConfig failStorage cmFail "q").1 ∧
    (SetConfig (fileStorage stdStore) cmDisk "p" (.map [("port", .num 9090)])).2 =
      some (.saveFailed "failed to write config file: disk full") ∧
    (SetConfig (fileStorage stdStore) cmDisk "p"
        (.map [("port", .num 9090)])).1.cache = cmDisk.cache ∧
    assocLookup (SetConfig (fileStorage stdStore) cmDisk "p"
        (.map [("port", .num 9090)])).1.store.files (configPath stdStore "p") =
      some FileContent.corrupt := by
  obtain ⟨h1, h2⟩ := (setConfig_atomic_on_failure memStorage).2.1 cmPort "p"
    (.map [("port", .num 70000)]) portSchema (.field "port" (.aboveMax 65535))
    rfl rfl
  obtain ⟨h3, h4⟩ := (setConfig_atomic_on_failure failStorage).2.2.2.1 cmFail "q"
    [] "disk full" (fun sch h => nomatch h) rfl
  obtain ⟨h5, h6⟩ := (setConfig_atomic_on_failure memStorage).2.2.2.2.2.2
    stdStore cmDisk "p" [("port", .num 9090)] "disk full" []
    (fun sch h => nomatch h) rfl rfl
  exact ⟨h1, h2, h3, h4, by rw [h5]; rfl, by rw [h5], h6⟩

/-! ## C5 — deferred route binding -/

/-- The route-queue invariant of a registry: once the router is attached the
queue is empty (established by `SetRouter`, which drains it). -/
def RInv {Ctx η σ : Type} (r : Registry Ctx η σ) : Prop :=
  r.routerAttached = true → r.routes = []

theorem registerRoute_unattached {Ctx η σ : Type} (r : Registry Ctx η σ)
    (rt : Route η) (ha : r.routerAttached = false) :
    (registerRoute r rt).routerAttached = false ∧
    (registerRoute r rt).boundLog = r.boundLog ∧
    (registerRoute r rt).routes = r.routes ++ [rt] := by
  unfold registerRoute
  rw [ha]
  exact ⟨rfl, rfl, rfl⟩

theorem registerRoute_attached {Ctx η σ : Type} (r : Registry Ctx η σ)
    (rt : Route η) (ha : r.routerAttached = true) :
    (registerRoute r rt).routerAttached = true ∧
    boundRoutes (registerRoute r rt) = boundRoutes r ++ [rt] ∧
    (registerRoute r rt).routes = r.routes := by
  unfold registerRoute
  rw [ha]
  exact ⟨rfl, by simp [boundRoutes], rfl⟩

theorem foldl_registerRoute_unattached {Ctx η σ : Type} (l : List (Route η)) :
    ∀ r : Registry Ctx η σ, r.routerAttached = false →
      (l.foldl registerRoute r).routerAttached = false ∧
      (l.foldl registerRoute r).boundLog = r.boundLog ∧
      (l.foldl registerRoute r).routes = r.routes ++ l := by
  induction l with
  | nil => intro r ha; exact ⟨ha, rfl, by simp⟩
  | cons rt l ih =>
    intro r ha
    obtain ⟨h1, h2, h3⟩ := registerRoute_unattached r rt ha
    obtain ⟨g1, g2, g3⟩ := ih (registerRoute r rt) h1
    rw [List.foldl_cons]
    exact ⟨g1, by rw [g2, h2], by rw [g3, h3]; simp⟩

theorem foldl_registerRoute_attached {Ctx η σ : Type} (l : List (Route η)) :
    ∀ r : Registry Ctx η σ, r.routerAttached = true →
      (l.foldl registerRoute r).routerAttached = true ∧
      boundRoutes (l.foldl registerRoute r) = boundRoutes r ++ l ∧
      (l.foldl registerRoute r).routes = r.routes := by
  induction l with
  | nil => intro r ha; exact ⟨ha, by simp, rfl⟩
  | cons rt l ih =>
    intro r ha
    obtain ⟨h1, h2, h3⟩ := registerRoute_attached r rt ha
    obtain ⟨g1, g2, g3⟩ := ih (registerRoute r rt) h1
    rw [List.foldl_cons]
    exact ⟨g1, by rw [g2, h2]; simp, by rw [g3, h3]⟩

theorem registerCore_router_fields {Ctx η σ : Type} (S : Storage σ)
    (r : Registry Ctx η σ) (p : PluginData Ctx η) :
    (registerCore S r p).routerAttached = r.routerAttached ∧
    (registerCore S r p).boundLog = r.boundLog ∧
    (registerCore S r p).routes = r.routes := by
  unfold registerCore
  cases p.service <;> exact ⟨rfl, rfl, rfl⟩

theorem registerBody_unattached {Ctx η σ : Type} (S : Storage σ)
    (r : Registry Ctx η σ) (p : PluginData Ctx η)
    (ha : r.routerAttached = false) :
    (registerBody S r p).routerAttached = false ∧
    (registerBody S r p).boundLog = r.boundLog ∧
    (registerBody S r p).routes = r.routes ++ routesOf p := by
  unfold registerBody
  obtain ⟨c1, c2, c3⟩ := registerCore_router_fields S r p
  obtain ⟨h1, h2, h3⟩ :=
    foldl_registerRoute_unattached p.routes (registerCore S r p) (c1.trans ha)
  obtain ⟨g1, g2, g3⟩ := foldl_registerRoute_unattached
    (p.adminRoutes.map (fun rt => { rt with path := "/admin" ++ rt.path })) _ h1
  refine ⟨g1, by rw [g2, h2, c2], ?_⟩
  rw [g3, h3, c3, routesOf, List.append_assoc]

theorem registerBody_attached {Ctx η σ : Type} (S : Storage σ)
    (r : Registry Ctx η σ) (p : PluginData Ctx η)
    (ha : r.routerAttached = true) :
    (registerBody S r p).routerAttached = true ∧
    boundRoutes (registerBody S r p) = boundRoutes r ++ routesOf p ∧
    (registerBody S r p).routes = r.routes := by
  unfold registerBody
  obtain ⟨c1, c2, c3⟩ := registerCore_router_fields S r p
  obtain ⟨h1, h2, h3⟩ :=
    foldl_registerRoute_attached p.routes (registerCore S r p) (c1.trans ha)
  obtain ⟨g1, g2, g3⟩ := foldl_registerRoute_attached
    (p.adminRoutes.map (fun rt => { rt with path := "/admin" ++ rt.path })) _ h1
  refine ⟨g1, ?_, by rw [g3, h3, c3]⟩
  rw [g2, h2]
  have hc : boundRoutes (registerCore S r p) = boundRoutes r := by
    unfold boundRoutes
    rw [c2]
  rw [hc, List.append_assoc]
  rfl

theorem Register_unattached {Ctx η σ : Type} (S : Storage σ)
    (r : Registry Ctx η σ) (p : PluginData Ctx η)
    (ha : r.routerAttached = false) :
    (Register S r p).1.routerAttached = false ∧
    (Register S r p).1.boundLog = r.boundLog ∧
    (Register S r p).1.routes =
      r.routes ++ (if (Register S r p).2 = none then routesOf p else []) := by
  unfold Register
  by_cases h1 : (findPlugin r.plugins p.id).isSome = true
  · rw [if_pos h1]
    exact ⟨ha, rfl, by simp⟩
  · rw [if_neg h1]
    cases h2 : p.deps.find? (fun d => (findPlugin r.plugins d).isNone) with
    | some d => exact ⟨ha, rfl, by simp⟩
    | none =>
      obtain ⟨b1, b2, b3⟩ := registerBody_unattached S r p ha
      exact ⟨b1, b2, by rw [b3]; simp⟩

theorem Register_attached {Ctx η σ : Type} (S : Storage σ)
    (r : Registry Ctx η σ) (p : PluginData Ctx η)
    (ha : r.routerAttached = true) :
    (Register S r p).1.routerAttached = true ∧
    boundRoutes (Register S r p).1 =
      boundRoutes r ++ (if (Register S r p).2 = none then routesOf p else []) ∧
    (Register S r p).1.routes = r.routes := by
  unfold Register
  by_cases h1 : (findPlugin r.plugins p.id).isSome = true
  · rw [if_pos h1]
    exact ⟨ha, by simp, rfl⟩
  · rw [if_neg h1]
    cases h2 : p.deps.find? (fun d => (findPlugin r.plugins d).isNone) with
    | some d => exact ⟨ha, by simp, rfl⟩
    | none =>
      obtain ⟨b1, b2, b3⟩ := registerBody_attached S r p ha
      exact ⟨b1, by rw [b2]; simp, b3⟩

theorem SetRouter_spec {Ctx η σ : Type} (r : Registry Ctx η σ) :
    boundRoutes (SetRouter r) = boundRoutes r ++ r.routes ∧
    (SetRouter r).routes = [] ∧ (SetRouter r).routerAttached = true := by
  unfold SetRouter
  obtain ⟨h1, h2, h3⟩ :=
    foldl_registerRoute_attached r.routes { r with routerAttached := true } rfl
  exact ⟨h2, rfl, h1⟩

/-- `SetRouter` on a registry whose queue is already drained and whose router
is attached changes nothing. -/
theorem SetRouter_of_drained {Ctx η σ : Type} (r : Registry Ctx η σ)
    (hq : r.routes = []) (ha : r.routerAttached = true) : SetRouter r = r := by
  rcases r with ⟨pl, sv, hk, ra, bl, rts, ini, str, cmr⟩
  simp only [] at hq ha
  subst hq
  subst ha
  rfl

theorem runOps_never_bound {Ctx η σ : Type} (S : Storage σ)
    (ops : List (RegOp Ctx η)) :
    ∀ r : Registry Ctx η σ, (∀ op ∈ ops, op ≠ RegOp.setRouter) →
      r.routerAttached = false →
      (runOps S r ops).routerAttached = false ∧
      (runOps S r ops).boundLog = r.boundLog := by
  induction ops with
  | nil => intro r _ ha; exact ⟨ha, rfl⟩
  | cons op ops ih =>
    intro r hno ha
    cases op with
    | register p =>
      obtain ⟨h1, h2, h3⟩ := Register_unattached S r p ha
      obtain ⟨g1, g2⟩ := ih (Register S r p).1
        (fun o ho => hno o (List.mem_cons_of_mem _ ho)) h1
      refine ⟨g1, ?_⟩
      show (runOps S (Register S r p).1 ops).boundLog = r.boundLog
      rw [g2, h2]
    | setRouter =>
      exact absurd rfl (hno RegOp.setRouter (List.mem_cons_self _ _))

theorem runOps_bind_eq {Ctx η σ : Type} (S : Storage σ)
    (ops : List (RegOp Ctx η)) :
    ∀ r : Registry Ctx η σ, RInv r →
      boundRoutes (runOps S r ops) ++ (runOps S r ops).routes =
        boundRoutes r ++ r.routes ++ contributed S r ops ∧
      RInv (runOps S r ops) := by
  induction ops with
  | nil => intro r hinv; exact ⟨by simp [runOps, contributed], hinv⟩
  | cons op ops ih =>
    intro r hinv
    cases op with
    | register p =>
      cases ha : r.routerAttached with
      | false =>
        obtain ⟨h1, h2, h3⟩ := Register_unattached S r p ha
        obtain ⟨ihA, ihB⟩ := ih (Register S r p).1
          (fun hat => absurd (h1 ▸ hat) (by simp))
        refine ⟨?_, ihB⟩
        show boundRoutes (runOps S (Register S r p).1 ops) ++
          (runOps S (Register S r p).1 ops).routes = _
        rw [ihA, h3]
        show _ = boundRoutes r ++ r.routes ++
          ((if (Register S r p).2 = none then routesOf p else []) ++
            contributed S (Register S r p).1 ops)
        have hb : boundRoutes (Register S r p).1 = boundRoutes r := by
          unfold boundRoutes
          rw [h2]
        rw [hb]
        simp [List.append_assoc]
      | true =>
        have hq : r.routes = [] := hinv ha
        obtain ⟨h1, h2, h3⟩ := Register_attached S r p ha
        obtain ⟨ihA, ihB⟩ := ih (Register S r p).1 (fun _ => h3.trans hq)
        refine ⟨?_, ihB⟩
        show boundRoutes (runOps S (Register S r p).1 ops) ++
          (runOps S (Register S r p).1 ops).routes = _
        rw [ihA, h2, h3, hq]
        show _ = boundRoutes r ++ [] ++
          ((if (Register S r p).2 = none then routesOf p else []) ++
            contributed S (Register S r p).1 ops)
        simp [List.append_assoc]
    | setRouter =>
      obtain ⟨h1, h2, h3⟩ := SetRouter_spec r
      obtain ⟨ihA, ihB⟩ := ih (SetRouter r) (fun _ => h2)
      refine ⟨?_, ihB⟩
      show boundRoutes (runOps S (SetRouter r) ops) ++
        (runOps S (SetRouter r) ops).routes = _
      rw [ihA, h1, h2]
      show _ = boundRoutes r ++ r.routes ++ contributed S (SetRouter r) ops
      simp [List.append_assoc]

/-- C5: starting from a registry with no router attached, no contributed route
is bound before `SetRouter` is called (and un-drained routes remain
queued); over any trace of `Register` / `SetRouter` calls, the bound
routes followed by the queued routes are EXACTLY the contributed routes
(each bound at most once, and exactly once when drained); `SetRouter`
binds precisely the queued routes and empties the queue; and a second
`SetRouter` after the drain changes nothing. -/
theorem route_binding_exactly_once {Ctx η σ : Type} (S : Storage σ) (cm0 : CM σ) :
    (∀ ops : List (RegOp Ctx η), (∀ op ∈ ops, op ≠ RegOp.setRouter) →
        boundRoutes (runOps S (emptyRegistry cm0) ops) = [] ∧
        (runOps S (emptyRegistry cm0) ops).routes =
          contributed S (emptyRegistry cm0) ops) ∧
    (∀ ops : List (RegOp Ctx η),
        boundRoutes (runOps S (emptyRegistry cm0) ops) ++
          (runOps S (emptyRegistry cm0) ops).routes =
          contributed S (emptyRegistry cm0) ops) ∧
    (∀ r : Registry Ctx η σ,
        boundRoutes (SetRouter r) = boundRoutes r ++ r.routes ∧
        (SetRouter r).routes = []) ∧
    (∀ r : Registry Ctx η σ, SetRouter (SetRouter r) = SetRouter r) := by
  have hmain : ∀ ops : List (RegOp Ctx η),
      boundRoutes (runOps S (emptyRegistry cm0) ops) ++
        (runOps S (emptyRegistry cm0) ops).routes =
        contributed S (emptyRegistry cm0) ops := by
    intro ops
    have h := (runOps_bind_eq S ops (emptyRegistry cm0)
      (fun hat => nomatch hat)).1
    simpa [boundRoutes, emptyRegistry] using h
  refine ⟨?_, hmain, ?_, ?_⟩
  · intro ops hno
    have hnb := runOps_never_bound S ops (emptyRegistry cm0) hno rfl
    have hb : boundRoutes (runOps S (emptyRegistry cm0) ops) = [] := by
      unfold boundRoutes
      rw [hnb.2]
      rfl
    refine ⟨hb, ?_⟩
    have := hmain ops
    rw [hb] at this
    simpa using this
  · intro r
    exact ⟨(SetRouter_spec r).1, (SetRouter_spec r).2.1⟩
  · intro r
    exact SetRouter_of_drained (SetRouter r) (SetRouter_spec r).2.1
      (SetRouter_spec r).2.2

/-- A routable plugin contributing one route `GET /hello`. -/
def pRoutes : PluginData Unit Unit :=
  { id := "r", deps := [], defaultConfig := .map [], genSchema := ⟨[]⟩,
    service := none, hooks := [],
    routes := [{ method := "GET", path := "/hello", handler := (),
                 middlewares := [] }],
    adminRoutes := [], initErr := none, startErr := none, stopErr := none }

/-- Witness for C5: before `SetRouter` the contributed route is queued and
nothing is bound; after a trace ending in `SetRouter` the bound routes plus
the (empty) queue are exactly the contributed routes. -/
theorem route_binding_exactly_once_witness :
    (boundRoutes (runOps memStorage (emptyRegistry cmMem)
        [RegOp.register pRoutes]) = [] ∧
     (runOps memStorage (emptyRegistry cmMem) [RegOp.register pRoutes]).routes =
       contributed memStorage (emptyRegistry cmMem) [RegOp.register pRoutes]) ∧
    boundRoutes (runOps memStorage (emptyRegistry cmMem)
        [RegOp.register pRoutes, RegOp.setRouter]) ++
      (runOps memStorage (emptyRegistry cmMem)
        [RegOp.register pRoutes, RegOp.setRouter]).routes =
      contributed memStorage (emptyRegistry cmMem)
        [RegOp.register pRoutes, RegOp.setRouter] := by
  refine ⟨(route_binding_exactly_once memStorage cmMem).1 [RegOp.register pRoutes]
      ?_, (route_binding_exactly_once memStorage cmMem).2.1
      [RegOp.register pRoutes, RegOp.setRouter]⟩
  intro op hop
  simp only [List.mem_singleton] at hop
  subst hop
  intro hcon
  exact RegOp.noConfusion hcon

/-! ## C8 — Registry.Stop -/

/-- Go `Registry.Stop` at the registry level: run the loop over the plugin
table (in iteration order `order`) starting from the registry's `started`
table, and install the resulting table back. -/
def RegistryStop {Ctx η σ : Type} (r : Registry Ctx η σ)
    (order : List (PluginData Ctx η)) :
    Registry Ctx η σ × Option (List GoError) :=
  match StopAll order { started := r.started, errs := [], trace := [] } with
  | (fin, res) => ({ r with started := fin.started }, res)

theorem foldl_stopStep_spec {Ctx η : Type} (order : List (PluginData Ctx η)) :
    ∀ st : StopState, (order.map (fun p => p.id)).Nodup →
      (order.foldl stopStep st).trace =
        st.trace ++
          ((order.filter (fun p => st.started.contains p.id)).map
            (fun p => p.id)) ∧
      (order.foldl stopStep st).errs =
        st.errs ++
          ((order.filter (fun p => st.started.contains p.id)).filterMap
            (fun p => p.stopErr)) ∧
      (∀ x, x ∈ (order.foldl stopStep st).started ↔
        x ∈ st.started ∧ ¬ x ∈ order.map (fun p => p.id)) := by
  induction order with
  | nil =>
    intro st hnd
    refine ⟨by simp, by simp, fun x => by simp⟩
  | cons p rest ih =>
    intro st hnd
    have hnd' : (List.map (fun p => p.id) (p :: rest)).Nodup := hnd
    rw [List.map_cons, List.nodup_cons] at hnd'
    obtain ⟨hpid, hnd2⟩ := hnd'
    by_cases hst : st.started.contains p.id = true
    · have hstep : stopStep st p =
          { started := st.started.filter (fun x => !(x == p.id)),
            errs := st.errs ++
              (match p.stopErr with | some e => [e] | none => []),
            trace := st.trace ++ [p.id] } := by
        unfold stopStep
        rw [if_pos hst]
      obtain ⟨ihT, ihE, ihS⟩ := ih (stopStep st p) hnd2
      have hfilt : rest.filter (fun q => (stopStep st p).started.contains q.id) =
          rest.filter (fun q => st.started.contains q.id) := by
        apply List.filter_congr
        intro q hq
        rw [hstep]
        have hne : q.id ≠ p.id := by
          intro hEq
          exact hpid (hEq ▸ List.mem_map_of_mem (fun z => z.id) hq)
        simp [hne]
      refine ⟨?_, ?_, ?_⟩
      · rw [List.foldl_cons, ihT, hfilt, hstep]
        have hstm : p.id ∈ st.started := by simpa using hst
        simp [List.filter_cons, hst, hstm]
      · rw [List.foldl_cons, ihE, hfilt, hstep]
        have hstm : p.id ∈ st.started := by simpa using hst
        cases he : p.stopErr <;>
          simp [List.filter_cons, hst, hstm, List.filterMap_cons, he]
      · intro x
        rw [List.foldl_cons, ihS x, hstep]
        by_cases hx : x = p.id
        · subst hx
          simp
        · simp [hx, Ne.symm hx]
    · have hstep : stopStep st p = st := by
        unfold stopStep
        rw [if_neg hst]
      have hpns : ¬ p.id ∈ st.started := by simpa using hst
      obtain ⟨ihT, ihE, ihS⟩ := ih st hnd2
      refine ⟨?_, ?_, ?_⟩
      · rw [List.foldl_cons, hstep, ihT]
        simp [List.filter_cons, hst, hpns]
      · rw [List.foldl_cons, hstep, ihE]
        simp [List.filter_cons, hst, hpns]
      · intro x
        rw [List.foldl_cons, hstep, ihS x]
        by_cases hx : x = p.id
        · subst hx
          simp [hpns]
        · simp [hx, Ne.symm hx]

/-- C8 (amended): `Registry.Stop` invokes `Stop` on exactly the plugins
currently in Started state (in iteration order), collects ALL their errors
and returns them as one aggregate error iff there is at least one (the
remaining started plugins are still processed after an error); and EVERY
processed started plugin is transitioned out of Started — also those whose
`Stop` returned an error — so after a full `Stop` pass `IsEnabled` is
false for all plugins, regardless of which `Stop` calls succeeded. -/
theorem stop_collects_errors {Ctx η σ : Type} (r : Registry Ctx η σ)
    (order : List (PluginData Ctx η))
    (hnd : (order.map (fun p => p.id)).Nodup) :
    (RegistryStop r order).1.started =
      (StopAll order { started := r.started, errs := [], trace := [] }).1.started ∧
    (StopAll order { started := r.started, errs := [], trace := [] }).1.trace =
      (order.filter (fun p => r.started.contains p.id)).map (fun p => p.id) ∧
    (StopAll order { started := r.started, errs := [], trace := [] }).1.errs =
      (order.filter (fun p => r.started.contains p.id)).filterMap
        (fun p => p.stopErr) ∧
    ((RegistryStop r order).2 = none ↔
      (order.filter (fun p => r.started.contains p.id)).filterMap
        (fun p => p.stopErr) = []) ∧
    (∀ x, x ∈ order.map (fun p => p.id) →
      IsEnabled (RegistryStop r order).1 x = false) := by
  obtain ⟨hT, hE, hS⟩ := foldl_stopStep_spec order
    { started := r.started, errs := [], trace := [] } hnd
  have hEe : (StopAll order
      { started := r.started, errs := [], trace := [] }).1.errs =
      (order.filter (fun p => r.started.contains p.id)).filterMap
        (fun p => p.stopErr) := by
    show (order.foldl stopStep _).errs = _
    rw [hE]
    rfl
  refine ⟨rfl, ?_, hEe, ?_, ?_⟩
  · show (order.foldl stopStep _).trace = _
    rw [hT]
    rfl
  · show (if (order.foldl stopStep
        { started := r.started, errs := [], trace := [] }).errs.isEmpty
        then none else some _) = none ↔ _
    rw [show (order.foldl stopStep
        { started := r.started, errs := [], trace := [] }).errs =
      (order.filter (fun p => r.started.contains p.id)).filterMap
        (fun p => p.stopErr) from hEe]
    by_cases hemp : ((order.filter (fun p => r.started.contains p.id)).filterMap
        (fun p => p.stopErr)) = []
    · simp [hemp]
    · simp [hemp, List.isEmpty_iff]
  · intro x hx
    have := (hS x).mpr
    have hnot : ¬ x ∈ (order.foldl stopStep
        { started := r.started, errs := [], trace := [] }).started := by
      intro hmem
      exact ((hS x).mp hmem).2 hx
    unfold IsEnabled RegistryStop
    simpa using hnot

/-- A started plugin whose `Stop` fails. -/
def pStop : PluginData Unit Unit :=
  { id := "s", deps := [], defaultConfig := .map [], genSchema := ⟨[]⟩,
    service := none, hooks := [], routes := [], adminRoutes := [],
    initErr := none, startErr := none, stopErr := some "boom" }

/-- A registry in which `pStop` is registered and started. -/
def rStarted : Registry Unit Unit MemSt :=
  { plugins := [pStop], services := [], hooks := [], routerAttached := false,
    boundLog := [], routes := [], initialized := ["s"], started := ["s"],
    cm := cmMem }

/-- Counterexample to C8 as stated: plugin `"s"` is Started and its `Stop`
fails, yet after `Registry.Stop` it is no longer enabled (`started` is
cleared unconditionally) — the claim requires `IsEnabled` to become false
EXACTLY for the plugins whose `Stop` succeeded, i.e. to stay true here. -/
theorem stop_failure_still_disables_cex :
    pStop.stopErr = some "boom" ∧
    IsEnabled rStarted "s" = true ∧
    (RegistryStop rStarted [pStop]).2 = some ["boom"] ∧
    IsEnabled (RegistryStop rStarted [pStop]).1 "s" = false :=
  ⟨rfl, rfl, rfl, rfl⟩

/-- Witness for the amended C8 at the one-plugin registry `rStarted`: the
failing `Stop` is invoked, its error is aggregated and returned, and the
plugin is disabled anyway. -/
theorem stop_collects_errors_witness :
    (StopAll [pStop]
        { started := rStarted.started, errs := [], trace := [] }).1.trace =
      ["s"] ∧
    ((RegistryStop rStarted [pStop]).2 = none ↔
      ([pStop].filter (fun p => rStarted.started.contains p.id)).filterMap
        (fun p => p.stopErr) = []) ∧
    IsEnabled (RegistryStop rStarted [pStop]).1 "s" = false := by
  obtain ⟨h1, h2, h3, h4, h5⟩ := stop_collects_errors rStarted [pStop] (by decide)
  exact ⟨by rw [h2]; rfl, h4, h5 "s" (by decide)⟩

/-! ## C6 — dependency-ordered lifecycle traversal -/

/-- The ids of a plugin list, in order. -/
def idsOf {Ctx η : Type} (ps : List (PluginData Ctx η)) : List String :=
  ps.map (fun p => p.id)

/-- Every dependency of every plugin resolves to a strictly earlier plugin in
the registration order — the invariant `Register` maintains (it refuses
dependencies on plugins that are not yet registered). -/
def DepsEarlier {Ctx η : Type} (ps : List (PluginData Ctx η)) : Prop :=
  ∀ i p, ps.get? i = some p → ∀ d ∈ p.deps,
    ∃ j q, j < i ∧ ps.get? j = some q ∧ q.id = d

/-- The trace respects dependencies: whenever a plugin's lifecycle method was
invoked, each of its registered dependencies was invoked strictly earlier. -/
def OrdOk {Ctx η : Type} (ps : List (PluginData Ctx η)) (tr : List String) : Prop :=
  ∀ p ∈ ps, p.id ∈ tr → ∀ d ∈ p.deps, (findPlugin ps d).isSome = true →
    ∃ t1 t2, tr = t1 ++ p.id :: t2 ∧ d ∈ t1

/-- The state table and the trace hold the same ids (true between lifecycle
errors: every invoked plugin was flagged). -/
def SetEq (st : LifeState) : Prop := ∀ x, x ∈ st.flags ↔ x ∈ st.trace

/-- The running invariant of the traversal. -/
def LInv {Ctx η : Type} (ps : List (PluginData Ctx η)) (st : LifeState) : Prop :=
  st.trace.Nodup ∧ SetEq st ∧ OrdOk ps st.trace

/-- Every id in `l` belongs to a plugin of index `< n`. -/
def IdsBelow {Ctx η : Type} (ps : List (PluginData Ctx η)) (n : Nat)
    (l : List String) : Prop :=
  ∀ x ∈ l, ∃ j q, j < n ∧ ps.get? j = some q ∧ q.id = x

theorem findPlugin_some_facts {Ctx η : Type} (ps : List (PluginData Ctx η))
    (d : String) (q : PluginData Ctx η) (h : findPlugin ps d = some q) :
    q.id = d ∧ q ∈ ps := by
  induction ps with
  | nil => cases h
  | cons p rest ih =>
    unfold findPlugin at h
    by_cases hp : p.id = d
    · rw [if_pos hp] at h
      cases h
      exact ⟨hp, List.mem_cons_self _ _⟩
    · rw [if_neg hp] at h
      obtain ⟨h1, h2⟩ := ih h
      exact ⟨h1, List.mem_cons_of_mem p h2⟩

theorem findPlugin_none_iff {Ctx η : Type} (ps : List (PluginData Ctx η))
    (d : String) : findPlugin ps d = none ↔ ¬ d ∈ idsOf ps := by
  induction ps with
  | nil => simp [findPlugin, idsOf]
  | cons p rest ih =>
    unfold findPlugin
    by_cases hp : p.id = d
    · simp [hp, idsOf]
    · rw [if_neg hp]
      rw [ih]
      simp [idsOf]
      intro _ h
      exact hp h.symm

theorem findPlugin_unique {Ctx η : Type} (ps : List (PluginData Ctx η))
    (hnd : (idsOf ps).Nodup) (q : PluginData Ctx η) (hq : q ∈ ps) (d : String)
    (hid : q.id = d) : findPlugin ps d = some q := by
  induction ps with
  | nil => cases hq
  | cons p rest ih =>
    rw [show idsOf (p :: rest) = p.id :: idsOf rest from rfl,
        List.nodup_cons] at hnd
    unfold findPlugin
    rcases List.mem_cons.mp hq with hqp | hqr
    · subst hqp
      rw [if_pos hid]
    · have hne : p.id ≠ d := by
        intro hpd
        exact hnd.1 (hpd ▸ hid ▸ List.mem_map_of_mem (fun z => z.id) hqr)
      rw [if_neg hne]
      exact ih hnd.2 hqr

theorem id_unique {Ctx η : Type} (ps : List (PluginData Ctx η))
    (hnd : (idsOf ps).Nodup) (p q : PluginData Ctx η) (hp : p ∈ ps) (hq : q ∈ ps)
    (hid : q.id = p.id) : q = p := by
  have h1 := findPlugin_unique ps hnd q hq p.id hid
  have h2 := findPlugin_unique ps hnd p hp p.id rfl
  rw [h1] at h2
  cases h2
  rfl

theorem idsBelow_not_self {Ctx η : Type} (ps : List (PluginData Ctx η))
    (hnd : (idsOf ps).Nodup) (i : Nat) (p : PluginData Ctx η)
    (hi : ps.get? i = some p) (l : List String) (hb : IdsBelow ps i l) :
    p.id ∉ l := by
  intro hmem
  obtain ⟨j, q, hji, hjq, hqid⟩ := hb p.id hmem
  have hmap_i : (idsOf ps).get? i = some p.id := by
    unfold idsOf
    rw [List.get?_map, hi]
    rfl
  have hmap_j : (idsOf ps).get? j = some p.id := by
    unfold idsOf
    rw [List.get?_map, hjq]
    simp [hqid]
  have hlen : j < (idsOf ps).length := (List.get?_eq_some.mp hmap_j).1
  have := List.get?_inj hlen hnd (hmap_j.trans hmap_i.symm)
  omega

theorem idsBelow_mono {Ctx η : Type} (ps : List (PluginData Ctx η)) (n m : Nat)
    (hnm : n ≤ m) (l : List String) (hb : IdsBelow ps n l) : IdsBelow ps m l := by
  intro x hx
  obtain ⟨j, q, hj, hq, hid⟩ := hb x hx
  exact ⟨j, q, by omega, hq, hid⟩

theorem idsBelow_append {Ctx η : Type} (ps : List (PluginData Ctx η)) (n : Nat)
    (l1 l2 : List String) (h1 : IdsBelow ps n l1) (h2 : IdsBelow ps n l2) :
    IdsBelow ps n (l1 ++ l2) := by
  intro x hx
  rcases List.mem_append.mp hx with hx | hx
  · exact h1 x hx
  · exact h2 x hx

theorem advDeps_spec {Ctx η : Type} (ps : List (PluginData Ctx η)) (i : Nat)
    (f : LifeState → PluginData Ctx η → Option (LifeState × Option GoError))
    (hf : ∀ j q st, j < i → ps.get? j = some q → LInv ps st →
      ∃ st2 res, f st q = some (st2, res) ∧
        (∃ l, st2.flags = st.flags ++ l ∧ IdsBelow ps (j + 1) l) ∧
        (res = none → LInv ps st2 ∧ (∃ l2, st2.trace = st.trace ++ l2) ∧
          q.id ∈ st2.flags) ∧
        (res ≠ none → st2.trace.Nodup ∧ OrdOk ps st2.trace)) :
    ∀ (deps : List String) (st : LifeState),
      (∀ d ∈ deps, ∀ dp, findPlugin ps d = some dp →
        ∃ j, j < i ∧ ps.get? j = some dp) →
      LInv ps st →
      ∃ st2 res, advDeps ps f st deps = some (st2, res) ∧
        (∃ l, st2.flags = st.flags ++ l ∧ IdsBelow ps i l) ∧
        (res = none → LInv ps st2 ∧ (∃ l2, st2.trace = st.trace ++ l2) ∧
          (∀ d ∈ deps, (findPlugin ps d).isSome = true → d ∈ st2.flags)) ∧
        (res ≠ none → st2.trace.Nodup ∧ OrdOk ps st2.trace) := by
  intro deps
  induction deps with
  | nil =>
    intro st _ hinv
    refine ⟨st, none, rfl, ⟨[], by simp, fun x hx => absurd hx (List.not_mem_nil x)⟩,
      fun _ => ⟨hinv, ⟨[], by simp⟩, fun d hd => absurd hd (List.not_mem_nil d)⟩,
      fun hne => absurd rfl hne⟩
  | cons d ds ih =>
    intro st hres hinv
    cases hfp : findPlugin ps d with
    | none =>
      obtain ⟨st2, res, hrun, hfl, hsucc, herr⟩ := ih st
        (fun d2 hd2 => hres d2 (List.mem_cons_of_mem d hd2)) hinv
      refine ⟨st2, res, ?_, hfl, ?_, herr⟩
      · unfold advDeps
        rw [hfp]
        exact hrun
      · intro hr
        obtain ⟨h1, h2, h3⟩ := hsucc hr
        refine ⟨h1, h2, ?_⟩
        intro d2 hd2 hsm
        rcases List.mem_cons.mp hd2 with hdd | hd2
        · subst hdd
          rw [hfp] at hsm
          cases hsm
        · exact h3 d2 hd2 hsm
    | some dp =>
      obtain ⟨j, hji, hjq⟩ := hres d (List.mem_cons_self d ds) dp hfp
      obtain ⟨stA, resA, hrunA, ⟨lA, hflA, hbelA⟩, hsuccA, herrA⟩ :=
        hf j dp st hji hjq hinv
      cases resA with
      | some e =>
        refine ⟨stA, some e, ?_, ?_, ?_, ?_⟩
        · simp only [advDeps, hfp, hrunA]
        · exact ⟨lA, hflA, idsBelow_mono ps (j + 1) i (by omega) lA hbelA⟩
        · intro hr
          cases hr
        · intro _
          exact herrA (by simp)
      | none =>
        obtain ⟨hinvA, ⟨l2A, htrA⟩, hdpA⟩ := hsuccA rfl
        obtain ⟨st2, res, hrun, ⟨lB, hflB, hbelB⟩, hsucc, herr⟩ := ih stA
          (fun d2 hd2 => hres d2 (List.mem_cons_of_mem d hd2)) hinvA
        refine ⟨st2, res, ?_, ?_, ?_, herr⟩
        · simp only [advDeps, hfp, hrunA]
          exact hrun
        · refine ⟨lA ++ lB, ?_, ?_⟩
          · rw [hflB, hflA, List.append_assoc]
          · exact idsBelow_append ps i lA lB
              (idsBelow_mono ps (j + 1) i (by omega) lA hbelA) hbelB
        · intro hr
          obtain ⟨h1, ⟨l2B, htrB⟩, h3⟩ := hsucc hr
          refine ⟨h1, ⟨l2A ++ l2B, by rw [htrB, htrA, List.append_assoc]⟩, ?_⟩
          intro d2 hd2 hsm
          rcases List.mem_cons.mp hd2 with hdd | hd2
          · subst hdd
            have hdpid : dp.id = d2 := (findPlugin_some_facts ps d2 dp hfp).1
            have : dp.id ∈ st2.flags := by
              rw [hflB]
              exact List.mem_append_left lB hdpA
            rw [hdpid] at this
            exact this
          · exact h3 d2 hd2 hsm

theorem advPlugin_spec {Ctx η : Type} (eOf : PluginData Ctx η → Option GoError)
    (ps : List (PluginData Ctx η)) (hnd : (idsOf ps).Nodup)
    (hde : DepsEarlier ps) :
    ∀ (fuel i : Nat) (p : PluginData Ctx η) (st : LifeState),
      ps.get? i = some p → i < fuel → LInv ps st →
      ∃ st2 res, advPlugin eOf ps fuel st p = some (st2, res) ∧
        (∃ l, st2.flags = st.flags ++ l ∧ IdsBelow ps (i + 1) l) ∧
        (res = none → LInv ps st2 ∧ (∃ l2, st2.trace = st.trace ++ l2) ∧
          p.id ∈ st2.flags) ∧
        (res ≠ none → st2.trace.Nodup ∧ OrdOk ps st2.trace) := by
  intro fuel
  induction fuel with
  | zero =>
    intro i p st _ hlt
    exact absurd hlt (Nat.not_lt_zero i)
  | succ fuel ihf =>
    intro i p st hi hlt hinv
    by_cases hg : p.id ∈ st.flags
    · refine ⟨st, none, by simp [advPlugin, hg],
        ⟨[], by simp, fun x hx => absurd hx (List.not_mem_nil x)⟩,
        fun _ => ⟨hinv, ⟨[], by simp⟩, hg⟩, fun hne => absurd rfl hne⟩
    · have hres : ∀ d ∈ p.deps, ∀ dp, findPlugin ps d = some dp →
          ∃ j, j < i ∧ ps.get? j = some dp := by
        intro d hd dp hfp
        obtain ⟨j, q, hji, hjq, hqid⟩ := hde i p hi d hd
        have hq : findPlugin ps d = some q :=
          findPlugin_unique ps hnd q (List.get?_mem hjq) d hqid
        rw [hq] at hfp
        cases hfp
        exact ⟨j, hji, hjq⟩
      have hfa : ∀ j q st3, j < i → ps.get? j = some q → LInv ps st3 →
          ∃ st2 res, advPlugin eOf ps fuel st3 q = some (st2, res) ∧
            (∃ l, st2.flags = st3.flags ++ l ∧ IdsBelow ps (j + 1) l) ∧
            (res = none → LInv ps st2 ∧ (∃ l2, st2.trace = st3.trace ++ l2) ∧
              q.id ∈ st2.flags) ∧
            (res ≠ none → st2.trace.Nodup ∧ OrdOk ps st2.trace) :=
        fun j q st3 hji hjq hinv3 => ihf j q st3 hjq (by omega) hinv3
      obtain ⟨st1, res1, hrun, ⟨l, hfl, hbel⟩, hsucc, herr⟩ :=
        advDeps_spec ps i (advPlugin eOf ps fuel) hfa p.deps st hres hinv
      cases res1 with
      | some e =>
        refine ⟨st1, some e, ?_, ?_, ?_, ?_⟩
        · simp [advPlugin, hg, hrun]
        · exact ⟨l, hfl, idsBelow_mono ps i (i + 1) (by omega) l hbel⟩
        · intro hr
          cases hr
        · intro _
          exact herr (by simp)
      | none =>
        obtain ⟨hinv1, ⟨l2, htr⟩, hdepsfl⟩ := hsucc rfl
        have hpid_l : p.id ∉ l := idsBelow_not_self ps hnd i p hi l hbel
        have hpid1 : p.id ∉ st1.flags := by
          rw [hfl]
          intro hmem
          rcases List.mem_append.mp hmem with hmem | hmem
          · exact hg hmem
          · exact hpid_l hmem
        have hpidtr : p.id ∉ st1.trace :=
          fun hmem => hpid1 ((hinv1.2.1 p.id).mpr hmem)
        have hnodup2 : (st1.trace ++ [p.id]).Nodup := by
          rw [List.nodup_append]
          refine ⟨hinv1.1, List.nodup_singleton p.id, ?_⟩
          intro x hx hxmem
          have hxp : x = p.id := by simpa using hxmem
          exact hpidtr (hxp ▸ hx)
        have hpmem : p ∈ ps := List.get?_mem hi
        have hord2 : OrdOk ps (st1.trace ++ [p.id]) := by
          intro q hq hqtr d hd hdp
          rcases List.mem_append.mp hqtr with hin | hin
          · obtain ⟨t1, t2, hsplit, hdt⟩ := hinv1.2.2 q hq hin d hd hdp
            exact ⟨t1, t2 ++ [p.id], by rw [hsplit]; simp, hdt⟩
          · have hqp : q.id = p.id := by simpa using hin
            have hqep : q = p := id_unique ps hnd p q hpmem hq hqp
            subst hqep
            have hdfl : d ∈ st1.flags := hdepsfl d hd hdp
            have hdtr : d ∈ st1.trace := (hinv1.2.1 d).mp hdfl
            exact ⟨st1.trace, [], rfl, hdtr⟩
        cases he : eOf p with
        | some e =>
          refine ⟨{ st1 with trace := st1.trace ++ [p.id] }, some e, ?_, ?_, ?_, ?_⟩
          · rw [show advPlugin eOf ps (Nat.succ fuel) st p =
              (match advDeps ps (advPlugin eOf ps fuel) st p.deps with
               | none => none
               | some (st1, some e) => some (st1, some e)
               | some (st1, none) =>
                 match eOf p with
                 | some e => some ({ st1 with trace := st1.trace ++ [p.id] }, some e)
                 | none => some ({ flags := st1.flags ++ [p.id],
                                   trace := st1.trace ++ [p.id] }, none))
              from by rw [advPlugin]; rw [if_neg hg]]
            rw [hrun, he]
          · exact ⟨l, hfl, idsBelow_mono ps i (i + 1) (by omega) l hbel⟩
          · intro hr
            cases hr
          · intro _
            exact ⟨hnodup2, hord2⟩
        | none =>
          refine ⟨{ flags := st1.flags ++ [p.id], trace := st1.trace ++ [p.id] },
            none, ?_, ?_, ?_, ?_⟩
          · rw [show advPlugin eOf ps (Nat.succ fuel) st p =
              (match advDeps ps (advPlugin eOf ps fuel) st p.deps with
               | none => none
               | some (st1, some e) => some (st1, some e)
               | some (st1, none) =>
                 match eOf p with
                 | some e => some ({ st1 with trace := st1.trace ++ [p.id] }, some e)
                 | none => some ({ flags := st1.flags ++ [p.id],
                                   trace := st1.trace ++ [p.id] }, none))
              from by rw [advPlugin]; rw [if_neg hg]]
            rw [hrun, he]
          · refine ⟨l ++ [p.id], by rw [hfl, List.append_assoc], ?_⟩
            refine idsBelow_append ps (i + 1) l [p.id]
              (idsBelow_mono ps i (i + 1) (by omega) l hbel) ?_
            intro x hx
            have hxp : x = p.id := by simpa using hx
            exact ⟨i, p, by omega, hi, hxp.symm⟩
          · intro _
            refine ⟨⟨hnodup2, ?_, hord2⟩, ⟨l2 ++ [p.id],
              by rw [htr, List.append_assoc]⟩, by simp⟩
            intro x
            constructor
            · intro hx
              rcases List.mem_append.mp hx with hx | hx
              · exact List.mem_append_left _ ((hinv1.2.1 x).mp hx)
              · exact List.mem_append_right _ hx
            · intro hx
              rcases List.mem_append.mp hx with hx | hx
              · exact List.mem_append_left _ ((hinv1.2.1 x).mpr hx)
              · exact List.mem_append_right _ hx
          · intro hne
            exact absurd rfl hne

theorem advanceAll_spec {Ctx η : Type} (eOf : PluginData Ctx η → Option GoError)
    (ps : List (PluginData Ctx η)) (hnd : (idsOf ps).Nodup)
    (hde : DepsEarlier ps) :
    ∀ (order : List (PluginData Ctx η)) (st : LifeState),
      (∀ p ∈ order, p ∈ ps) → LInv ps st →
      (advanceAll eOf ps order st).1.trace.Nodup ∧
      OrdOk ps (advanceAll eOf ps order st).1.trace := by
  intro order
  induction order with
  | nil =>
    intro st _ hinv
    exact ⟨hinv.1, hinv.2.2⟩
  | cons p rest ih =>
    intro st hall hinv
    have hp : p ∈ ps := hall p (List.mem_cons_self p rest)
    obtain ⟨i, hi⟩ := List.mem_iff_get?.mp hp
    have hilt : i < ps.length + 1 := by
      have := (List.get?_eq_some.mp hi).1
      omega
    obtain ⟨st2, res, hrun, hfl, hsucc, herr⟩ :=
      advPlugin_spec eOf ps hnd hde (ps.length + 1) i p st hi hilt hinv
    cases res with
    | some e =>
      have heq : advanceAll eOf ps (p :: rest) st = (st2, some e) := by
        simp only [advanceAll, hrun]
      rw [heq]
      exact herr (by simp)
    | none =>
      obtain ⟨hinv2, -, -⟩ := hsucc rfl
      have heq : advanceAll eOf ps (p :: rest) st = advanceAll eOf ps rest st2 := by
        simp only [advanceAll, hrun]
      rw [heq]
      exact ih st2 (fun q hq => hall q (List.mem_cons_of_mem p hq)) hinv2

theorem findPlugin_isSome_index {Ctx η : Type} (ps : List (PluginData Ctx η))
    (d : String) (h : (findPlugin ps d).isSome = true) :
    ∃ j q, ps.get? j = some q ∧ q.id = d := by
  induction ps with
  | nil => cases h
  | cons p rest ih =>
    unfold findPlugin at h
    by_cases hp : p.id = d
    · exact ⟨0, p, rfl, hp⟩
    · rw [if_neg hp] at h
      obtain ⟨j, q, hj, hq⟩ := ih h
      exact ⟨j + 1, q, hj, hq⟩

/-- A successful `Register` preserves the well-formedness of the plugin table:
ids stay unique and every dependency still resolves to a strictly earlier
plugin. -/
theorem Register_preserves_wf {Ctx η σ : Type} (S : Storage σ)
    (r : Registry Ctx η σ) (p : PluginData Ctx η)
    (hnd : (idsOf r.plugins).Nodup) (hde : DepsEarlier r.plugins)
    (hok : (Register S r p).2 = none) :
    (idsOf (Register S r p).1.plugins).Nodup ∧
    DepsEarlier (Register S r p).1.plugins := by
  have hfresh : findPlugin r.plugins p.id = none := by
    cases hf : findPlugin r.plugins p.id with
    | none => rfl
    | some q =>
      rw [Register_of_dup S r p (by rw [hf]; rfl)] at hok
      cases hok
  have hdeps : ∀ d ∈ p.deps, (findPlugin r.plugins d).isSome = true := by
    intro d hd
    cases hf : (findPlugin r.plugins d).isSome with
    | true => rfl
    | false =>
      have hnone : (findPlugin r.plugins d).isNone = true := by
        cases hfp : findPlugin r.plugins d with
        | none => rfl
        | some q => rw [hfp] at hf; cases hf
      have hfind : (p.deps.find? (fun d => (findPlugin r.plugins d).isNone)).isSome
          = true := by
        rw [List.find?_isSome]
        exact ⟨d, hd, hnone⟩
      obtain ⟨d0, hd0⟩ := Option.isSome_iff_exists.mp hfind
      unfold Register at hok
      rw [if_neg (by rw [hfresh]; simp), hd0] at hok
      cases hok
  have hplug : (Register S r p).1.plugins = r.plugins ++ [p] := by
    rw [Register_success_eq S r p hok]
    exact registerBody_plugins S r p
  rw [hplug]
  constructor
  · rw [show idsOf (r.plugins ++ [p]) = idsOf r.plugins ++ [p.id] from by
      unfold idsOf
      rw [List.map_append]
      rfl]
    rw [List.nodup_append]
    refine ⟨hnd, List.nodup_singleton p.id, ?_⟩
    intro x hx hxmem
    have hxp : x = p.id := by simpa using hxmem
    exact (findPlugin_none_iff r.plugins p.id).mp hfresh (hxp ▸ hx)
  · intro i q hi d hd
    by_cases hil : i < r.plugins.length
    · rw [List.get?_append hil] at hi
      obtain ⟨j, q2, hji, hjq, hqid⟩ := hde i q hi d hd
      have hjl : j < r.plugins.length := (List.get?_eq_some.mp hjq).1
      exact ⟨j, q2, hji, by rw [List.get?_append hjl]; exact hjq, hqid⟩
    · have hge : r.plugins.length ≤ i := by omega
      rw [List.get?_append_right hge] at hi
      cases hd2 : i - r.plugins.length with
      | zero =>
        rw [hd2] at hi
        cases hi
        obtain ⟨j, q2, hjq, hqid⟩ := findPlugin_isSome_index r.plugins d
          (hdeps d hd)
        have hjl : j < r.plugins.length := (List.get?_eq_some.mp hjq).1
        exact ⟨j, q2, by omega, by rw [List.get?_append hjl]; exact hjq, hqid⟩
      | succ k =>
        rw [hd2] at hi
        cases hi

/-- C6: over every well-formed plugin table (unique ids, dependencies
resolving to earlier registrations — exactly what successful `Register`
calls produce and preserve, final conjunct) and EVERY iteration order of
the table, `Initialize` — and likewise `Start` — invokes each plugin's
lifecycle method at most once per bootstrap (the invocation trace has no
duplicates: re-traversal of an already-advanced plugin is a no-op via the
state table), and whenever a plugin P with a registered dependency Q was
invoked, Q's invocation ran to completion strictly before P's began (the
traversal is sequential, so trace order is completion order) — also when
the iteration reaches P before Q. -/
theorem lifecycle_dependency_order {Ctx η σ : Type} (S : Storage σ) :
    (∀ (ps order : List (PluginData Ctx η)),
      (idsOf ps).Nodup → DepsEarlier ps → (∀ p ∈ order, p ∈ ps) →
      (initAllGo ps order).1.trace.Nodup ∧
      (∀ p ∈ ps, p.id ∈ (initAllGo ps order).1.trace →
        ∀ d ∈ p.deps, (findPlugin ps d).isSome = true →
          ∃ t1 t2, (initAllGo ps order).1.trace = t1 ++ p.id :: t2 ∧ d ∈ t1)) ∧
    (∀ (ps order : List (PluginData Ctx η)),
      (idsOf ps).Nodup → DepsEarlier ps → (∀ p ∈ order, p ∈ ps) →
      (startAllGo ps order).1.trace.Nodup ∧
      (∀ p ∈ ps, p.id ∈ (startAllGo ps order).1.trace →
        ∀ d ∈ p.deps, (findPlugin ps d).isSome = true →
          ∃ t1 t2, (startAllGo ps order).1.trace = t1 ++ p.id :: t2 ∧ d ∈ t1)) ∧
    (∀ (r : Registry Ctx η σ) (p : PluginData Ctx η),
      (idsOf r.plugins).Nodup → DepsEarlier r.plugins →
      (Register S r p).2 = none →
      (idsOf (Register S r p).1.plugins).Nodup ∧
      DepsEarlier (Register S r p).1.plugins) := by
  have hstart : ∀ ps : List (PluginData Ctx η), LInv ps { flags := [], trace := [] } :=
    fun ps => ⟨List.nodup_nil, fun x => by simp, fun p _ hp => absurd hp
      (List.not_mem_nil p.id)⟩
  refine ⟨?_, ?_, fun r p hnd hde hok => Register_preserves_wf S r p hnd hde hok⟩
  · intro ps order hnd hde hall
    obtain ⟨h1, h2⟩ := advanceAll_spec (fun p => p.initErr) ps hnd hde order
      { flags := [], trace := [] } hall (hstart ps)
    exact ⟨h1, h2⟩
  · intro ps order hnd hde hall
    obtain ⟨h1, h2⟩ := advanceAll_spec (fun p => p.startErr) ps hnd hde order
      { flags := [], trace := [] } hall (hstart ps)
    exact ⟨h1, h2⟩

/-- A dependency-free plugin with id `"a"` (the dependency of `pB`). -/
def pA : PluginData Unit Unit :=
  { id := "a", deps := [], defaultConfig := .map [], genSchema := ⟨[]⟩,
    service := none, hooks := [], routes := [], adminRoutes := [],
    initErr := none, startErr := none, stopErr := none }

/-- A two-plugin table where `"b"` depends on `"a"`. -/
def psW : List (PluginData Unit Unit) := [pA, pB]

/-- Witness for C6, at the table `[pA, pB]` (with `pB` depending on `"a"`)
iterated in the order `[pB, pA]` — reaching the dependent plugin first:
the Initialize trace is `["a", "b"]` (the dependency completed first and
each plugin ran once), and the theorem's conclusions hold there. -/
theorem lifecycle_dependency_order_witness :
    (initAllGo psW [pB, pA]).1.trace = ["a", "b"] ∧
    (initAllGo psW [pB, pA]).1.trace.Nodup ∧
    (∀ p ∈ psW, p.id ∈ (initAllGo psW [pB, pA]).1.trace →
      ∀ d ∈ p.deps, (findPlugin psW d).isSome = true →
        ∃ t1 t2, (initAllGo psW [pB, pA]).1.trace = t1 ++ p.id :: t2 ∧ d ∈ t1) := by
  have hde : DepsEarlier psW := by
    intro i p hp d hd
    rcases i with _ | _ | i
    · rw [show psW.get? 0 = some pA from rfl] at hp
      cases hp
      simp [pA] at hd
    · rw [show psW.get? 1 = some pB from rfl] at hp
      cases hp
      have hda : d = "a" := by simpa [pB] using hd
      subst hda
      exact ⟨0, pA, by omega, rfl, rfl⟩
    · rw [show psW.get? (i + 2) = none from rfl] at hp
      cases hp
  obtain ⟨h1, h2⟩ := (@lifecycle_dependency_order Unit Unit MemSt
    memStorage).1 psW [pB, pA] (by decide) hde
    (by intro p hp; rcases List.mem_cons.mp hp with h | h
        · rw [h]; simp [psW]
        · have : p = pA := by simpa using h
          rw [this]; simp [psW])
  exact ⟨rfl, h1, h2⟩

end Obtura
